import Mathlib

/-!
Verification development for the batch-submission orchestration scripts
of the engines repository (`scripts/run_wan_i2v_batch.py`,
`scripts/run_uprez_batch.py`, `scripts/run_qwen_image_batch.py`).

The Python control flow is embedded shallowly: every remote call made by
the scripts (upload, create dream, fetch dream, attach to playlist, list
playlist items) is an oracle passed in as a function argument, and a call
that may raise an exception is modelled with `Except Unit`.  The loops of
the scripts become folds and structural recursions over those oracles.
Machine-level hashing (`hashlib.md5`) is embedded at the byte level over
`Nat` with explicit reduction modulo 2^32.
-/

set_option maxRecDepth 10000

namespace Engines

/-! ### MD5 (`hashlib.md5`), byte level

`hashlib.md5(s.encode()).hexdigest()` is embedded as
`md5_hexdigest (strUtf8 s)`: UTF-8 encoding of the string, RFC 1321
padding and compression over 32-bit words represented as `Nat` reduced
modulo 2^32, and lowercase hex serialization of the 16 digest bytes. -/
def md5_s : List Nat :=
  [7,12,17,22,7,12,17,22,7,12,17,22,7,12,17,22,
   5,9,14,20,5,9,14,20,5,9,14,20,5,9,14,20,
   4,11,16,23,4,11,16,23,4,11,16,23,4,11,16,23,
   6,10,15,21,6,10,15,21,6,10,15,21,6,10,15,21]

def md5_K : List Nat :=
  [0xd76aa478, 0xe8c7b756, 0x242070db, 0xc1bdceee,
   0xf57c0faf, 0x4787c62a, 0xa8304613, 0xfd469501,
   0x698098d8, 0x8b44f7af, 0xffff5bb1, 0x895cd7be,
   0x6b901122, 0xfd987193, 0xa679438e, 0x49b40821,
   0xf61e2562, 0xc040b340, 0x265e5a51, 0xe9b6c7aa,
   0xd62f105d, 0x02441453, 0xd8a1e681, 0xe7d3fbc8,
   0x21e1cde6, 0xc33707d6, 0xf4d50d87, 0x455a14ed,
   0xa9e3e905, 0xfcefa3f8, 0x676f02d9, 0x8d2a4c8a,
   0xfffa3942, 0x8771f681, 0x6d9d6122, 0xfde5380c,
   0xa4beea44, 0x4bdecfa9, 0xf6bb4b60, 0xbebfbc70,
   0x289b7ec6, 0xeaa127fa, 0xd4ef3085, 0x04881d05,
   0xd9d4d039, 0xe6db99e5, 0x1fa27cf8, 0xc4ac5665,
   0xf4292244, 0x432aff97, 0xab9423a7, 0xfc93a039,
   0x655b59c3, 0x8f0ccc92, 0xffeff47d, 0x85845dd1,
   0x6fa87e4f, 0xfe2ce6e0, 0xa3014314, 0x4e0811a1,
   0xf7537e82, 0xbd3af235, 0x2ad7d2bb, 0xeb86d391]

def add32 (a b : Nat) : Nat := (a + b) % 4294967296

def not32 (x : Nat) : Nat := 4294967295 ^^^ x

def rotl32 (x s : Nat) : Nat := ((x <<< s) % 4294967296) ||| (x >>> (32 - s))

def leWord (b0 b1 b2 b3 : Nat) : Nat := b0 + 256 * b1 + 65536 * b2 + 16777216 * b3

/-- The `j`-th little-endian 32-bit word of a 64-byte block. -/
def wordOfBlock (block : List Nat) (j : Nat) : Nat :=
  leWord (block.getD (4*j) 0) (block.getD (4*j+1) 0)
    (block.getD (4*j+2) 0) (block.getD (4*j+3) 0)

structure MD5State where
  a : Nat
  b : Nat
  c : Nat
  d : Nat
deriving DecidableEq

def md5_round (M : Nat → Nat) (st : MD5State) (i : Nat) : MD5State :=
  let f :=
    if i < 16 then (st.b &&& st.c) ||| (not32 st.b &&& st.d)
    else if i < 32 then (st.d &&& st.b) ||| (not32 st.d &&& st.c)
    else if i < 48 then st.b ^^^ st.c ^^^ st.d
    else st.c ^^^ (st.b ||| not32 st.d)
  let g :=
    if i < 16 then i
    else if i < 32 then (5*i + 1) % 16
    else if i < 48 then (3*i + 5) % 16
    else (7*i) % 16
  let tmp := add32 (add32 (add32 f st.a) (md5_K.getD i 0)) (M g)
  ⟨st.d, add32 st.b (rotl32 tmp (md5_s.getD i 0)), st.b, st.c⟩

def md5_compress (st : MD5State) (block : List Nat) : MD5State :=
  let r := (List.range 64).foldl (md5_round (wordOfBlock block)) st
  ⟨add32 st.a r.a, add32 st.b r.b, add32 st.c r.c, add32 st.d r.d⟩

def toLEBytes4 (w : Nat) : List Nat := [w % 256, w / 256 % 256, w / 65536 % 256, w / 16777216 % 256]

def toLEBytes8 (n : Nat) : List Nat :=
  toLEBytes4 (n % 4294967296) ++ toLEBytes4 (n / 4294967296 % 4294967296)

/-- RFC 1321 padding: a 0x80 byte, zeros up to 56 mod 64, then the bit
length as a little-endian 64-bit quantity. -/
def md5_pad (msg : List Nat) : List Nat :=
  msg ++ 128 :: List.replicate ((119 - msg.length % 64) % 64) 0
      ++ toLEBytes8 ((8 * msg.length) % 18446744073709551616)

def md5_digest (msg : List Nat) : List Nat :=
  let padded := md5_pad msg
  let final := (List.range (padded.length / 64)).foldl
    (fun st i => md5_compress st ((padded.drop (64*i)).take 64))
    ⟨0x67452301, 0xefcdab89, 0x98badcfe, 0x10325476⟩
  toLEBytes4 final.a ++ toLEBytes4 final.b ++ toLEBytes4 final.c ++ toLEBytes4 final.d

def hexDigitChar (n : Nat) : Char := "0123456789abcdef".data.getD n '0'

def hexByteChars (b : Nat) : List Char := [hexDigitChar (b / 16), hexDigitChar (b % 16)]

def md5_hexdigest (msg : List Nat) : String := String.mk ((md5_digest msg).flatMap hexByteChars)

/-- UTF-8 encoding of one character (Python `str.encode()`). -/
def utf8Bytes (c : Char) : List Nat :=
  let n := c.toNat
  if n < 128 then [n]
  else if n < 2048 then [192 ||| (n >>> 6), 128 ||| (n &&& 63)]
  else if n < 65536 then
    [224 ||| (n >>> 12), 128 ||| ((n >>> 6) &&& 63), 128 ||| (n &&& 63)]
  else
    [240 ||| (n >>> 18), 128 ||| ((n >>> 12) &&& 63),
     128 ||| ((n >>> 6) &&& 63), 128 ||| (n &&& 63)]

def strUtf8 (s : String) : List Nat := s.data.flatMap utf8Bytes

/-! ### Identity deriver (`create_job_identifier`, run_wan_i2v_batch.py lines 60-64) -/
/-- `hashlib.md5(combo_prompt.encode()).hexdigest()[:8]`. -/
def comboHash (combo_prompt : String) : String :=
  String.mk ((md5_hexdigest (strUtf8 combo_prompt)).data.take 8)

/-- `create_job_identifier(image_path, combo_prompt)`: the work-unit key is
`image_path.name`; the result is `f"{image_name}:{combo_hash}"`. -/
def create_job_identifier (image_name : String) (combo_prompt : String) : String :=
  image_name ++ ":" ++ comboHash combo_prompt

def hexAlphabet : List Char := "0123456789abcdef".data

/-! ### Python string primitives

The dedup scan of the scripts uses `"…" in text`, `text.split(sep)`,
`text.split()` (whitespace split) and `text.lower()`.  They are embedded
over `List Char`.  `firstOccur sep text` returns the text before and
after the first occurrence of `sep`; `text.split(sep)[1]` is the chunk
between the first and the second occurrence, obtained by applying
`firstOccur` again to the `after` part. -/
/-- Python `str.split()` whitespace: exactly the code points for which
CPython's `str.isspace` holds (`Py_UNICODE_ISSPACE`): U+0009–U+000D,
U+001C–U+001F, U+0020, U+0085, U+00A0, U+1680, U+2000–U+200A, U+2028,
U+2029, U+202F, U+205F, U+3000. -/
def isPyWs (c : Char) : Bool :=
  (0x09 ≤ c.toNat && c.toNat ≤ 0x0D) || (0x1C ≤ c.toNat && c.toNat ≤ 0x1F)
  || c.toNat == 0x20 || c.toNat == 0x85 || c.toNat == 0xA0 || c.toNat == 0x1680
  || (0x2000 ≤ c.toNat && c.toNat ≤ 0x200A) || c.toNat == 0x2028
  || c.toNat == 0x2029 || c.toNat == 0x202F || c.toNat == 0x205F
  || c.toNat == 0x3000

/-- Text before and after the first occurrence of `sep`, if any. -/
def firstOccur (sep : List Char) : List Char → Option (List Char × List Char)
  | [] => if sep.isPrefixOf ([] : List Char) then some ([], []) else none
  | c :: rest =>
    if sep.isPrefixOf (c :: rest) then some ([], (c :: rest).drop sep.length)
    else (firstOccur sep rest).map (fun p => (c :: p.1, p.2))

/-- Python substring containment `needle in haystack`. -/
def substring_in (needle : List Char) : List Char → Bool
  | [] => needle.isEmpty
  | c :: rest => needle.isPrefixOf (c :: rest) || substring_in needle rest

/-- First whitespace-separated token: `text.split()[0] if text.split() else ""`. -/
def firstToken (l : List Char) : List Char :=
  (l.dropWhile isPyWs).takeWhile (fun c => !isPyWs c)

def lowerChars (l : List Char) : List Char := l.map Char.toLower

/-- Python `needle.lower() in haystack.lower()` (ASCII lowering). -/
def containsLower (needle haystack : String) : Bool :=
  substring_in (lowerChars needle.data) (lowerChars haystack.data)

/-- No occurrence of `sep` starts strictly inside `pre`, not even one
running over into what follows `pre` (decidable, independent of what
follows because a spilling-over match is determined by its first
`sep.length` characters, all inside `pre ++ sep`). -/
def sepClean (sep : List Char) : List Char → Bool
  | [] => true
  | c :: rest => !((sep.isPrefixOf ((c :: rest) ++ sep) : Bool)) && sepClean sep rest

/-! ### Data model

`DreamRec` is the subset of a remote dream record the scripts read;
a JSON field that is absent or null is modelled as `none`.
`PlaylistItem` is one entry of a playlist listing. -/
structure DreamRec where
  uuid : Option String := none
  name : Option String := none
  description : Option String := none
  original_video : Option String := none
  video : Option String := none
  thumbnail : Option String := none
  status : Option String := none
deriving DecidableEq

structure PlaylistItem where
  type : String
  dreamItem : Option DreamRec
  id : Nat
deriving DecidableEq

/-! ### Dedup index builder
(`get_existing_dream_identifiers`, run_wan_i2v_batch.py lines 66-90) -/
def batch_marker : String := "BATCH_IDENTIFIER:"

def markerChars : List Char := batch_marker.data

/-- `f"{description} {name}"` with the script's `.get(…, "")` defaults. -/
def text_to_check (d : DreamRec) : String :=
  d.description.getD "" ++ " " ++ d.name.getD ""

/-- Lines 81-85: `text.split("BATCH_IDENTIFIER:")[1]` is the chunk of text
between the first and the second occurrence of the marker (or everything
after the first occurrence when it is unique); the identifier is its
first whitespace token, and an empty token is discarded. -/
def extract_identifier (text : String) : Option String :=
  match firstOccur markerChars text.data with
  | none => none
  | some p =>
    let part1 := match firstOccur markerChars p.2 with
      | none => p.2
      | some q => q.1
    let tok := firstToken part1
    if tok.isEmpty then none else some (String.mk tok)

/-- Lines 74-86, one playlist item: non-dream items, items without a
dream record, items without the marker and empty tokens are all ignored;
a recovered identifier joins the set (Python `set` as duplicate-free
list). -/
def dedup_scan_step (acc : List String) (item : PlaylistItem) : List String :=
  if item.type == "dream" then
    match item.dreamItem with
    | some d =>
      match extract_identifier (text_to_check d) with
      | some idf => if acc.contains idf then acc else acc ++ [idf]
      | none => acc
    | none => acc
  else acc

/-- Lines 66-90.  The playlist fetch is an oracle that may raise
(`Except.error`), in which case the function returns the identifiers
accumulated so far — nothing, since the fetch is its first statement. -/
def get_existing_dream_identifiers (fetched : Except Unit (List PlaylistItem)) :
    List String :=
  match fetched with
  | .error _ => []
  | .ok items => items.foldl dedup_scan_step []

/-! ### Coarse dedup and marking (run_uprez_batch.py lines 64-98) -/
/-- Lines 64-72: a fetch that raises, or a missing dream, reads as "not
yet processed". -/
def is_dream_already_uprezed (fetched : Except Unit (Option DreamRec))
    (marker : String) : Bool :=
  match fetched with
  | .error _ => false
  | .ok none => false
  | .ok (some d) => containsLower marker (d.description.getD "")

/-- Lines 74-98: returns the Python return value together with the
description update issued to `client.update_dream` (none when the marker
is already present, when the dream is missing, or when the fetch raises).
The model assumes an issued update is applied by the remote store. -/
def update_dream_description (fetched : Except Unit (Option DreamRec))
    (marker : String) : Bool × Option String :=
  match fetched with
  | .error _ => (false, none)
  | .ok none => (false, none)
  | .ok (some d) =>
    let current_description := d.description.getD ""
    if containsLower marker current_description then (true, none)
    else
      let new_description :=
        if current_description ≠ "" then current_description ++ " " ++ marker
        else marker
      (true, some new_description)

/-- Applying an issued description update to the remote record. -/
def apply_update (d : DreamRec) (upd : Option String) : DreamRec :=
  match upd with
  | some nd => { d with description := some nd }
  | none => d

/-! ### Upload URL resolution (run_wan_i2v_batch.py lines 201-231) -/
def startsWithHttp (s : String) : Bool := "http".data.isPrefixOf s.data

/-- Line 210: `url and isinstance(url, str) and url.startswith('http')`
(a missing field and a non-string field both read as `none`). -/
def good_url (o : Option String) : Option String :=
  match o with
  | some u => if startsWithHttp u then some u else none
  | none => none

/-- Lines 208-213: try `original_video`, `video`, `thumbnail` in order and
accept the first string value starting with "http". -/
def pick_url (d : DreamRec) : Option String :=
  [d.original_video, d.video, d.thumbnail].findSome? good_url

structure ResolveResult where
  url : Option String
  calls : Nat
  sleeps : Nat
deriving DecidableEq

def max_retries : Nat := 10

/-- `time.sleep(0.5)` between attempts, in tenths of a second. -/
def upload_retry_delay_tenths : Nat := 5

/-- The retry loop of lines 201-224: `attempt` is the current index,
the second argument the number of attempts left; a raising fetch counts
as an attempt; the loop sleeps after every attempt but the last and stops
early at the first usable URL.  Returns the URL found (if any), the
number of `get_dream` calls made and the number of sleeps taken. -/
def resolve_go (fetch : Nat → Except Unit DreamRec) (attempt : Nat) :
    Nat → ResolveResult
  | 0 => ⟨none, 0, 0⟩
  | remaining + 1 =>
    match fetch attempt with
    | .ok d =>
      match pick_url d with
      | some u => ⟨some u, 1, 0⟩
      | none =>
        if remaining = 0 then ⟨none, 1, 0⟩
        else
          let res := resolve_go fetch (attempt + 1) remaining
          ⟨res.url, res.calls + 1, res.sleeps + 1⟩
    | .error _ =>
      if remaining = 0 then ⟨none, 1, 0⟩
      else
        let res := resolve_go fetch (attempt + 1) remaining
        ⟨res.url, res.calls + 1, res.sleeps + 1⟩

def resolve_image_url (fetch : Nat → Except Unit DreamRec) : ResolveResult :=
  resolve_go fetch 0 max_retries

/-! ### wan-i2v submission pipeline (run_wan_i2v_batch.py lines 164-293)

All remote calls are oracles bundled in `WanEnv`; `fetch_uploaded` is the
`get_dream` used by the URL-resolution loop, indexed by attempt number.
`created` and `playlist` record the remote store's state changes (dreams
created, items attached) so that a later run can list them.  The
generation-parameter payload handed to `create_dream_from_prompt` does
not influence any control flow and carries no dedup data, so the create
oracle receives the name and description only. -/
structure WanEnv where
  upload : String → Except Unit String
  fetch_uploaded : String → Nat → Except Unit DreamRec
  create : String → String → Except Unit String
  attach : String → Except Unit Unit

/-- Lines 189-236: upload, then resolve a presigned URL; on exhaustion
fall back to the raw uuid with a warning flag (the script logs and goes
on). -/
def wan_upload_image (env : WanEnv) (path : String) : Except Unit (String × Bool) :=
  match env.upload path with
  | .error e => .error e
  | .ok dream_uuid =>
    match (resolve_image_url (env.fetch_uploaded dream_uuid)).url with
    | some u => .ok (u, false)
    | none => .ok (dream_uuid, true)

structure ImageFile where
  path : String
  name : String
  stem : String
deriving DecidableEq

structure WanState where
  uploaded_image_map : List (String × String) := []
  active_dreams : List String := []
  created : List DreamRec := []
  playlist : List PlaylistItem := []
  job_count : Nat := 0
  skipped_count : Nat := 0
  failed_count : Nat := 0
deriving DecidableEq

/-- Python `list.index` (first index; all our calls are on members). -/
def pyIndex (l : List String) (x : String) : Nat :=
  match l with
  | [] => 0
  | a :: t => if a == x then 0 else pyIndex t x + 1

/-- Line 265: `f"{image_path.stem}_combo-{combo_idx}"`. -/
def wan_dream_name (combos : List String) (img : ImageFile) (combo : String) : String :=
  img.stem ++ "_combo-" ++ toString (pyIndex combos combo + 1)

/-- Lines 266+270: `f"Batch generation. BATCH_IDENTIFIER:{identifier}"`. -/
def wan_dream_description (img : ImageFile) (combo : String) : String :=
  "Batch generation. " ++ ("BATCH_IDENTIFIER:" ++ create_job_identifier img.name combo)

/-- Lines 238-286, one combo: skip when the identifier is known, else
create the dream (tagged name and description) and attach it; creation
and attachment share one exception handler, so an attach failure counts
the unit as failed and the uuid does not join `active_dreams`.  The
upload reference `source` enters only the parameter payload. -/
def wan_combo_step (env : WanEnv) (existing : List String) (combos : List String)
    (img : ImageFile) (source : String) (st : WanState) (combo : String) : WanState :=
  let st := { st with job_count := st.job_count + 1 }
  let identifier := create_job_identifier img.name combo
  if existing.contains identifier then
    { st with skipped_count := st.skipped_count + 1 }
  else
    let dream_name := wan_dream_name combos img combo
    let description := wan_dream_description img combo
    match env.create dream_name description with
    | .error _ => { st with failed_count := st.failed_count + 1 }
    | .ok uuid =>
      let drec : DreamRec := { name := some dream_name, description := some description }
      let st := { st with created := st.created ++ [drec] }
      match env.attach uuid with
      | .error _ => { st with failed_count := st.failed_count + 1 }
      | .ok _ =>
        { st with
            playlist := st.playlist ++ [{ type := "dream", dreamItem := some drec, id := 0 }],
            active_dreams := st.active_dreams ++ [uuid] }

/-- Lines 174-236, one image: skip it wholesale when every combo is known;
upload (with in-run cache `uploaded_image_map`) when needed, counting all
combos failed if the upload raises; then run the per-combo loop. -/
def wan_image_step (env : WanEnv) (existing : List String) (combos : List String)
    (st : WanState) (img : ImageFile) : WanState :=
  let source0 := st.uploaded_image_map.lookup img.path
  let needs_upload :=
    combos.any (fun c => !(existing.contains (create_job_identifier img.name c)))
  if !needs_upload then
    { st with skipped_count := st.skipped_count + combos.length }
  else
    match source0 with
    | some src => combos.foldl (wan_combo_step env existing combos img src) st
    | none =>
      match wan_upload_image env img.path with
      | .error _ => { st with failed_count := st.failed_count + combos.length }
      | .ok (src, _warned) =>
        let st := { st with uploaded_image_map := st.uploaded_image_map ++ [(img.path, src)] }
        combos.foldl (wan_combo_step env existing combos img src) st

/-- The submission phase of `main` (lines 164-293). -/
def wan_submission (env : WanEnv) (images : List ImageFile) (combos : List String)
    (existing : List String) : WanState :=
  images.foldl (wan_image_step env existing combos) {}

/-! Outcome accounting. -/
def wan_outcomes (st : WanState) : Nat :=
  st.active_dreams.length + st.skipped_count + st.failed_count

/-! ### Dedup round trip through a full run (claim C2) -/
def wan_tagged_rec (combos : List String) (img : ImageFile) (combo : String) : DreamRec :=
  { name := some (wan_dream_name combos img combo),
    description := some (wan_dream_description img combo) }

def wan_tagged_item (combos : List String) (img : ImageFile) (combo : String) : PlaylistItem :=
  { type := "dream", dreamItem := some (wan_tagged_rec combos img combo), id := 0 }

/-- All remote calls succeed; uploads resolve to a presigned URL at the
first attempt. -/
def wanEnvOk : WanEnv :=
  { upload := fun _ => .ok "up-1",
    fetch_uploaded := fun _ _ => .ok { original_video := some "http://img" },
    create := fun _ _ => .ok "dream-1",
    attach := fun _ => .ok () }

def imgPlain : ImageFile := { path := "/imgs/cat.png", name := "cat.png", stem := "cat" }

def imgSpace : ImageFile := { path := "/imgs/a b.png", name := "a b.png", stem := "a b" }

/-! ### uprez submission loop (run_uprez_batch.py lines 178-221)

Unlike the wan script, `add_item_to_playlist` sits in its own inner
try/except: an attach failure is logged and the unit still gets marked
and still joins `active_jobs`. -/
structure UprezEnv where
  create : String → String → Except Unit String
  attach : String → Except Unit Unit
  get_dream : Option String → Except Unit (Option DreamRec)

/-- Python `x or default` for an optional string field. -/
def pyOrDefault (o : Option String) (dflt : String) : String :=
  match o with
  | some s => if s = "" then dflt else s
  | none => dflt

/-- f-string rendering of a possibly-None value. -/
def optStr (o : Option String) : String :=
  match o with
  | some s => s
  | none => "None"

/-- Line 200: `f"{dream_name} (Uprez)"` with `dream_name = dream.get("name") or "Untitled"`. -/
def uprez_job_name (d : DreamRec) : String :=
  pyOrDefault d.name "Untitled" ++ " (Uprez)"

/-- Line 201: `f"Uprez of {dream_uuid}"`. -/
def uprez_job_desc (d : DreamRec) : String :=
  "Uprez of " ++ optStr d.uuid

structure UprezState where
  active_jobs : List String := []
  playlist : List String := []
  updates : List (Option String × String) := []
deriving DecidableEq

/-- Lines 180-221, one source dream: create the uprez job; on success,
attach it (failure logged, inner handler), mark the source dream
(`update_dream_description`, result ignored), and append the new job to
`active_jobs`. -/
def uprez_unit_step (env : UprezEnv) (marker : String) (st : UprezState)
    (d : DreamRec) : UprezState :=
  match env.create (uprez_job_name d) (uprez_job_desc d) with
  | .error _ => st
  | .ok newUuid =>
    let st1 := match env.attach newUuid with
      | .error _ => st
      | .ok _ => { st with playlist := st.playlist ++ [newUuid] }
    let st2 := match (update_dream_description (env.get_dream d.uuid) marker).2 with
      | some nd => { st1 with updates := st1.updates ++ [(d.uuid, nd)] }
      | none => st1
    { st2 with active_jobs := st2.active_jobs ++ [newUuid] }

def uprez_submission (env : UprezEnv) (marker : String) (units : List DreamRec) :
    UprezState :=
  units.foldl (uprez_unit_step env marker) {}

/-- Per-unit contribution to the polled batch: the created uuid whenever
creation succeeds, regardless of attach outcome. -/
def uprez_contrib (env : UprezEnv) (d : DreamRec) : List String :=
  match env.create (uprez_job_name d) (uprez_job_desc d) with
  | .error _ => []
  | .ok u => [u]

/-- Per-unit contribution to the issued mark updates: present whenever
creation succeeds and the marker is not already on the source dream. -/
def uprez_update_contrib (env : UprezEnv) (marker : String) (d : DreamRec) :
    List (Option String × String) :=
  match env.create (uprez_job_name d) (uprez_job_desc d) with
  | .error _ => []
  | .ok _ =>
    match (update_dream_description (env.get_dream d.uuid) marker).2 with
    | some nd => [(d.uuid, nd)]
    | none => []

def uprezEnvAttachFail : UprezEnv :=
  { create := fun _ _ => .ok "new-1",
    attach := fun _ => .error (),
    get_dream := fun _ => .ok (some { uuid := some "d-1", description := some "old" }) }

def uprezUnit1 : DreamRec := { uuid := some "d-1", name := some "vid" }

/-- Creation succeeds but attachment fails. -/
def wanEnvAttachFail : WanEnv :=
  { upload := fun _ => .ok "up-1",
    fetch_uploaded := fun _ _ => .ok { original_video := some "http://img" },
    create := fun _ _ => .ok "dream-1",
    attach := fun _ => .error () }

/-! ### Completion polling

`run_wan_i2v_batch.py` lines 299-331 and `run_qwen_image_batch.py`
lines 126-183.  A status query is an oracle that may raise; the
classification below is shared by both scripts: "processed" and "failed"
are terminal, an exception or any other (or missing) status is not. -/
def poll_status_terminal (q : String → Except Unit DreamRec) (uuid : String) : Bool :=
  match q uuid with
  | .error _ => false
  | .ok d =>
    if d.status == some "processed" then true
    else if d.status == some "failed" then true
    else false

/-- wan lines 306-323, one round: collect ids whose query returned a
terminal status into `completed`, then `pending -= completed`. -/
def wan_poll_round (q : String → Except Unit DreamRec) (pending : List String) :
    List String :=
  let completed := pending.filter (fun u => poll_status_terminal q u)
  pending.filter (fun u => !(completed.contains u))

/-- qwen lines 137-175, one id: re-append to `remaining` on exception or
non-terminal status; on "processed" resolve thumbnail-then-video and
count a successful download; "failed" is dropped. -/
def qwen_poll_step (q : String → Except Unit DreamRec) (dl : String → Bool)
    (acc : List (String × Nat) × Nat) (p : String × Nat) :
    List (String × Nat) × Nat :=
  match q p.1 with
  | .error _ => (acc.1 ++ [p], acc.2)
  | .ok d =>
    if d.status == some "processed" then
      let url := if d.thumbnail.getD "" = "" then d.video.getD "" else d.thumbnail.getD ""
      if url ≠ "" then
        if dl url then (acc.1, acc.2 + 1) else acc
      else acc
    else if d.status == some "failed" then acc
    else (acc.1 ++ [p], acc.2)

/-- qwen lines 134-177, one round over the pending list, returning the
new pending list and the number of downloads made this round. -/
def qwen_poll_round (q : String → Except Unit DreamRec) (dl : String → Bool)
    (pending : List (String × Nat)) : List (String × Nat) × Nat :=
  pending.foldl (qwen_poll_step q dl) ([], 0)

/-! ### Poll loop with wall-clock deadline (run_wan_i2v_batch.py lines 299-331)

Time is advanced only by `time.sleep(poll_interval)` (queries are
instantaneous in the model); `elapsed` is seconds since `start_time`.
The loop re-checks `pending and elapsed < max_wait` each round, polls,
and sleeps only when jobs remain.  The positivity proof for the interval
is what makes the `while` loop terminate. -/
def wan_poll_interval : Nat := 10

def wan_max_wait : Nat := 7200

def wan_poll_loop (q : Nat → String → Except Unit DreamRec) (interval maxWait : Nat)
    (hI : 0 < interval) : Nat → List String → List String × Nat
  | elapsed, pending =>
    if pending = [] then (pending, elapsed)
    else if h : elapsed < maxWait then
      let p' := wan_poll_round (q elapsed) pending
      if p' = [] then (p', elapsed)
      else wan_poll_loop q interval maxWait hI (elapsed + interval) p'
    else (pending, elapsed)
  termination_by elapsed _ => maxWait - elapsed
  decreasing_by omega

/-- Whether the script reports "Timeout waiting for … jobs" (line 328). -/
def wan_timeout_reported (result : List String × Nat) : Bool :=
  !result.1.isEmpty

/-! ### Claim C8: URL-resolution retry bounds -/
/-- The URL obtainable at attempt `i` (none when the fetch raises). -/
def attempt_url (fetch : Nat → Except Unit DreamRec) (i : Nat) : Option String :=
  match fetch i with
  | .error _ => none
  | .ok d => pick_url d

def wanEnvNoUrl : WanEnv :=
  { upload := fun _ => .ok "up-9",
    fetch_uploaded := fun _ _ => .error (),
    create := fun _ _ => .ok "dream-9",
    attach := fun _ => .ok () }

/-! ### Paginated playlist listing (run_uprez_batch.py lines 32-62)

The remote store is a list of items; `get_playlist_items(uuid, take, skip)`
returns the slice `items[skip : skip+take]` together with
`totalCount = items.length`.  A call that raises is modelled by the
predicate `err` on the call index: the `except` clause breaks the loop
with whatever has been accumulated.  `seen` records the concatenation of
the fetched pages; `calls` counts every listing call made, raising ones
included. -/
def fetch_page (items : List PlaylistItem) (take skip : Nat) : List PlaylistItem :=
  (items.drop skip).take take

/-- Lines 45-51: only items of type "dream" with a dream record are kept,
paired with the playlist item id. -/
def page_entry (item : PlaylistItem) : Option (DreamRec × Nat) :=
  if item.type == "dream" then
    match item.dreamItem with
    | some d => some (d, item.id)
    | none => none
  else none

structure PaginateResult where
  dreams : List (DreamRec × Nat)
  calls : Nat
  seen : List PlaylistItem
deriving DecidableEq

def get_playlist_dreams_go (err : Nat → Bool) (items : List PlaylistItem) (take : Nat) :
    Nat → List (DreamRec × Nat) → Nat → List PlaylistItem → PaginateResult
  | skip, acc, calls, seen =>
    if err calls then ⟨acc, calls + 1, seen⟩
    else
      let page := fetch_page items take skip
      if hpage : page = [] then ⟨acc, calls + 1, seen ++ page⟩
      else
        let acc2 := acc ++ page.filterMap page_entry
        if acc2.length ≥ items.length ∨ page.length < take then ⟨acc2, calls + 1, seen ++ page⟩
        else get_playlist_dreams_go err items take (skip + take) acc2 (calls + 1) (seen ++ page)
  termination_by skip _ _ _ => items.length - skip
  decreasing_by
    have h1 : ¬ items.length ≤ skip := by
      intro hle
      apply hpage
      show (items.drop skip).take take = []
      rw [List.drop_eq_nil_of_le hle]
      simp
    have h2 : take ≠ 0 := by
      intro h0
      apply hpage
      show (items.drop skip).take take = []
      rw [h0]
      simp
    omega

/-- `get_all_playlist_dreams` with the script's page size `take = 100`. -/
def get_all_playlist_dreams (err : Nat → Bool) (items : List PlaylistItem) :
    PaginateResult :=
  get_playlist_dreams_go err items 100 0 [] 0 []

/-- Exact number of listing calls the loop makes on an error-free remote
holding `r` not-yet-fetched items: one final empty-page call when `r = 0`;
otherwise `ceil(r / take)`, plus one extra call when `take` divides `r`
and not every item is a dream entry (the dream count then never reaches
`totalCount` at the last full page). -/
def expected_calls (take r : Nat) (allD : Bool) : Nat :=
  if r = 0 then 1
  else (r + take - 1) / take + (if r % take = 0 ∧ allD = false then 1 else 0)

def itemOther : PlaylistItem := { type := "other", dreamItem := none, id := 0 }

/-! ### Claim C7: dedup failure degrades open -/
/-- Lines 163-171 of run_uprez_batch.py: the scan keeping only dreams not
yet marked. -/
def uprez_dreams_to_process (env : UprezEnv) (marker : String)
    (units : List DreamRec) : List DreamRec :=
  units.filter (fun d => !(is_dream_already_uprezed (env.get_dream d.uuid) marker))

/-! ## Theorems -/

/-- Test vector: the embedded MD5 agrees with `hashlib.md5` on the empty
string. -/
lemma md5_hexdigest_empty_vector :
    md5_hexdigest (strUtf8 "") = "d41d8cd98f00b204e9800998ecf8427e" := by decide

/-- Test vector for the identity deriver (md5("x") = 9dd4e461...). -/
lemma create_job_identifier_vector :
    create_job_identifier "img.png" "x" = "img.png:9dd4e461" := by decide

lemma hexDigitChar_mem (n : Nat) : hexDigitChar n ∈ hexAlphabet := by
  by_cases h : n < 16
  · interval_cases n <;> decide
  · rw [hexAlphabet, hexDigitChar, List.getD_eq_default]
    · decide
    · have hlen : "0123456789abcdef".data.length = 16 := by decide
      omega

lemma hexByteChars_all_mem (b : Nat) :
    (hexByteChars b).all (fun c => hexAlphabet.contains c) = true := by
  simp [hexByteChars, List.contains, List.elem_eq_mem, hexDigitChar_mem]

lemma flatMap_hex_all_mem (l : List Nat) :
    (l.flatMap hexByteChars).all (fun c => hexAlphabet.contains c) = true := by
  induction l with
  | nil => rfl
  | cons b t ih =>
    rw [List.flatMap_cons, List.all_append, hexByteChars_all_mem, ih]
    rfl

lemma md5_digest_length (msg : List Nat) : (md5_digest msg).length = 16 := by
  simp [md5_digest, toLEBytes4]

lemma flatMap_hex_length (l : List Nat) :
    (l.flatMap hexByteChars).length = 2 * l.length := by
  induction l with
  | nil => rfl
  | cons b t ih =>
    rw [List.flatMap_cons, List.length_append, ih]
    simp [hexByteChars]
    omega

lemma md5_hexdigest_length (msg : List Nat) : (md5_hexdigest msg).data.length = 32 := by
  show ((md5_digest msg).flatMap hexByteChars).length = 32
  rw [flatMap_hex_length, md5_digest_length]

lemma all_take (p : Char → Bool) (l : List Char) (n : Nat) (h : l.all p = true) :
    (l.take n).all p = true := by
  rw [List.all_eq_true] at h ⊢
  exact fun c hc => h c (List.take_subset n l hc)

/-- Claim C1: the identity deriver is a pure, deterministic function: two
applications of `create_job_identifier` to the same
`(image_name, combo_prompt)` pair are equal; the result is exactly
`image_name ++ ":" ++ fingerprint` where the fingerprint is the first 8
characters of the MD5 hex digest of the UTF-8 encoded combo prompt, has
length 8, and consists only of lowercase hex characters. -/
theorem C1_identity_deriver_deterministic (image_name combo_prompt : String) :
    create_job_identifier image_name combo_prompt
      = create_job_identifier image_name combo_prompt
    ∧ create_job_identifier image_name combo_prompt
      = image_name ++ ":" ++ String.mk ((md5_hexdigest (strUtf8 combo_prompt)).data.take 8)
    ∧ (comboHash combo_prompt).data.length = 8
    ∧ (comboHash combo_prompt).data.all (fun c => hexAlphabet.contains c) = true := by
  refine ⟨rfl, rfl, ?_, ?_⟩
  · have h := md5_hexdigest_length (strUtf8 combo_prompt)
    show ((md5_hexdigest (strUtf8 combo_prompt)).data.take 8).length = 8
    rw [List.length_take, h]
    rfl
  · have h2 : (md5_hexdigest (strUtf8 combo_prompt)).data.all
        (fun c => hexAlphabet.contains c) = true := by
      show ((md5_digest (strUtf8 combo_prompt)).flatMap hexByteChars).all
        (fun c => hexAlphabet.contains c) = true
      exact flatMap_hex_all_mem _
    exact all_take _ _ _ h2

lemma isPrefixOf_append_self (l t : List Char) : l.isPrefixOf (l ++ t) = true := by
  induction l with
  | nil => cases t <;> rfl
  | cons c l' ih => simp [List.isPrefixOf, ih]

lemma isPrefixOf_refl_self (l : List Char) : l.isPrefixOf l = true := by
  have h := isPrefixOf_append_self l []
  rwa [List.append_nil] at h

/-- Whether a prefix fits inside the first list decides prefix-ness of the
appended list. -/
lemma isPrefixOf_append_of_le (m l t : List Char) (h : m.length ≤ l.length) :
    m.isPrefixOf (l ++ t) = m.isPrefixOf l := by
  induction m generalizing l with
  | nil => simp [List.isPrefixOf]
  | cons x m' ih =>
    cases l with
    | nil => simp at h
    | cons a l' =>
      simp only [List.cons_append, List.isPrefixOf, List.append_eq]
      rw [ih l' (by simpa using h)]

lemma substring_in_of_here (m t : List Char) (h : m.isPrefixOf t = true) :
    substring_in m t = true := by
  cases t with
  | nil =>
    cases m with
    | nil => rfl
    | cons c m' => simp [List.isPrefixOf] at h
  | cons c rest => simp [substring_in, h]

lemma substring_in_append_left (m x t : List Char) (h : substring_in m t = true) :
    substring_in m (x ++ t) = true := by
  induction x with
  | nil => simpa using h
  | cons c x' ih => simp [substring_in, ih]

lemma substring_in_self_append (m y : List Char) :
    substring_in m (m ++ y) = true :=
  substring_in_of_here _ _ (isPrefixOf_append_self m y)

lemma substring_in_sandwich (m x y : List Char) :
    substring_in m (x ++ m ++ y) = true := by
  rw [List.append_assoc]
  exact substring_in_append_left _ _ _ (substring_in_self_append m y)

/-- Failure of prefix-match survives appending after a blocked character. -/
lemma isPrefixOf_token_append (m l r : List Char) (hsp : ' ' ∉ m)
    (h : m.isPrefixOf l = false) : m.isPrefixOf (l ++ ' ' :: r) = false := by
  induction m generalizing l with
  | nil => simp [List.isPrefixOf] at h
  | cons s m' ih =>
    cases l with
    | nil =>
      have hs : s ≠ ' ' := fun he => hsp (he ▸ List.mem_cons_self s m')
      simp [List.isPrefixOf, hs]
    | cons a l' =>
      simp only [List.cons_append, List.isPrefixOf, Bool.and_eq_false_iff] at h ⊢
      rcases h with h | h
      · exact Or.inl h
      · exact Or.inr (ih l' (fun he => hsp (List.mem_cons_of_mem s he)) h)

lemma firstOccur_none_not_here (sep l : List Char) (h : firstOccur sep l = none) :
    sep.isPrefixOf l = false := by
  cases l with
  | nil =>
    cases hp : sep.isPrefixOf ([] : List Char) with
    | false => rfl
    | true => simp [firstOccur, hp] at h
  | cons c rest =>
    cases hp : sep.isPrefixOf (c :: rest) with
    | false => rfl
    | true => simp [firstOccur, hp] at h

lemma firstOccur_cons_tail (sep : List Char) (c : Char) (rest : List Char)
    (h : firstOccur sep (c :: rest) = none) : firstOccur sep rest = none := by
  have hp := firstOccur_none_not_here sep (c :: rest) h
  cases hfo : firstOccur sep rest with
  | none => rfl
  | some p =>
    rw [firstOccur, hp, hfo] at h
    simp at h

/-- A marker with no space never matches across the token boundary:
searching `ident ++ ' ' :: name` with no occurrence inside `ident`
reduces to searching `name`. -/
lemma firstOccur_skip_token (sep ident name : List Char) (hsp : ' ' ∉ sep)
    (hfo : firstOccur sep ident = none) :
    firstOccur sep (ident ++ ' ' :: name)
      = (firstOccur sep name).map (fun p => (ident ++ ' ' :: p.1, p.2)) := by
  induction ident with
  | nil =>
    have hne : sep.isPrefixOf ([] : List Char) = false := firstOccur_none_not_here _ _ hfo
    cases sep with
    | nil => simp [List.isPrefixOf] at hne
    | cons s ss =>
      have hs : s ≠ ' ' := fun he => hsp (he ▸ List.mem_cons_self s ss)
      have : (s :: ss).isPrefixOf (' ' :: name) = false := by
        simp [List.isPrefixOf, hs]
      simp only [List.nil_append, firstOccur, this, Bool.false_eq_true, if_false]
  | cons a id' ih =>
    have hp : sep.isPrefixOf (a :: id') = false := firstOccur_none_not_here _ _ hfo
    have hp2 : sep.isPrefixOf ((a :: id') ++ ' ' :: name) = false :=
      isPrefixOf_token_append _ _ _ hsp hp
    have htl : firstOccur sep id' = none := firstOccur_cons_tail _ _ _ hfo
    simp only [List.cons_append] at hp2 ⊢
    simp only [firstOccur, hp2, Bool.false_eq_true, if_false, ih htl]
    rcases firstOccur sep name with _ | p <;> rfl

lemma takeWhile_all_append (p : Char → Bool) (l : List Char) (x : Char) (r : List Char)
    (hl : ∀ c ∈ l, p c = true) (hx : p x = false) :
    (l ++ x :: r).takeWhile p = l := by
  induction l with
  | nil => simp [List.takeWhile_cons, hx]
  | cons c l' ih =>
    have hc := hl c (List.mem_cons_self c l')
    simp only [List.cons_append, List.takeWhile_cons, hc, if_true]
    rw [ih (fun d hd => hl d (List.mem_cons_of_mem c hd))]

/-- The first whitespace token of `ident ++ ' ' :: rest` is `ident` when
`ident` is nonempty and whitespace-free. -/
lemma firstToken_token_append (ident rest : List Char) (hne : ident ≠ [])
    (hws : ∀ c ∈ ident, isPyWs c = false) :
    firstToken (ident ++ ' ' :: rest) = ident := by
  cases ident with
  | nil => exact absurd rfl hne
  | cons i id' =>
    have hi := hws i (List.mem_cons_self i id')
    unfold firstToken
    rw [List.cons_append, List.dropWhile_cons]
    simp only [hi, Bool.false_eq_true, if_false]
    rw [← List.cons_append]
    exact takeWhile_all_append _ _ _ _ (by intro c hc; simp [hws c hc]) (by decide)

lemma firstOccur_boundary (sep pre suf : List Char) (hc : sepClean sep pre = true) :
    firstOccur sep (pre ++ (sep ++ suf)) = some (pre, suf) := by
  induction pre with
  | nil =>
    rw [List.nil_append]
    cases hs : sep ++ suf with
    | nil =>
      rcases List.append_eq_nil.mp hs with ⟨h1, h2⟩
      subst h1; subst h2; rfl
    | cons c r =>
      have hpre : sep.isPrefixOf (c :: r) = true := by
        rw [← hs]; exact isPrefixOf_append_self _ _
      simp only [firstOccur, hpre, if_true]
      rw [← hs, List.drop_left]
  | cons c pre' ih =>
    simp only [sepClean, Bool.and_eq_true, Bool.not_eq_true'] at hc
    obtain ⟨hc1, hc2⟩ := hc
    have hfit : sep.isPrefixOf ((c :: pre') ++ (sep ++ suf)) = false := by
      rw [← List.append_assoc]
      rw [isPrefixOf_append_of_le sep ((c :: pre') ++ sep) suf (by simp; omega)]
      exact hc1
    rw [List.cons_append] at hfit ⊢
    simp only [firstOccur, hfit, Bool.false_eq_true, if_false, ih hc2]
    rfl

lemma substring_in_eq_isSome (m l : List Char) :
    substring_in m l = (firstOccur m l).isSome := by
  induction l with
  | nil =>
    cases m with
    | nil => rfl
    | cons c m' => rfl
  | cons c rest ih =>
    cases hp : m.isPrefixOf (c :: rest) with
    | true => simp [substring_in, firstOccur, hp]
    | false =>
      simp only [substring_in, firstOccur, hp, Bool.false_eq_true, if_false, Bool.false_or, ih]
      cases firstOccur m rest <;> rfl

lemma text_data_shape (identS nameS : String) :
    ("Batch generation. " ++ ("BATCH_IDENTIFIER:" ++ identS) ++ " " ++ nameS).data
      = "Batch generation. ".data ++ (markerChars ++ (identS.data ++ ' ' :: nameS.data)) := by
  simp only [String.data_append, markerChars, batch_marker, List.append_assoc]
  simp

/-- Round trip of the dedup tagging scheme: extracting from
`"Batch generation. BATCH_IDENTIFIER:" ++ ident ++ " " ++ name` recovers
`ident` exactly, provided `ident` is nonempty, contains no whitespace and
does not itself contain the marker. -/
lemma extract_identifier_round_trip (identS nameS : String)
    (hid : firstOccur markerChars identS.data = none)
    (hne : identS.data ≠ [])
    (hws : ∀ c ∈ identS.data, isPyWs c = false) :
    extract_identifier ("Batch generation. " ++ ("BATCH_IDENTIFIER:" ++ identS) ++ " " ++ nameS)
      = some identS := by
  unfold extract_identifier
  rw [text_data_shape]
  have hclean : sepClean markerChars "Batch generation. ".data = true := by decide
  rw [firstOccur_boundary _ _ _ hclean]
  dsimp only
  have hsp : ' ' ∉ markerChars := by decide
  rw [firstOccur_skip_token markerChars identS.data nameS.data hsp hid]
  have hie : identS.data.isEmpty = false := by
    cases hd : identS.data with
    | nil => exact absurd hd hne
    | cons a t => rfl
  cases hfo : firstOccur markerChars nameS.data with
  | none =>
    simp only [hfo, Option.map_none']
    rw [firstToken_token_append _ _ hne hws, hie]
    rfl
  | some q =>
    simp only [hfo, Option.map_some']
    rw [firstToken_token_append _ _ hne hws, hie]
    rfl

lemma containsLower_append_marker (cur marker : String) :
    containsLower marker (cur ++ " " ++ marker) = true := by
  unfold containsLower lowerChars
  rw [String.data_append, String.data_append, List.map_append, List.map_append]
  exact substring_in_append_left _ _ _
    (substring_in_of_here _ _ (isPrefixOf_refl_self _))

lemma containsLower_self (marker : String) : containsLower marker marker = true :=
  substring_in_of_here _ _ (isPrefixOf_refl_self _)

/-- Claim C4: the coarse mark-processed operation is idempotent: it reports
success; when the marker is already present (case-insensitively) it
issues no remote update; otherwise it issues exactly one update that
appends the marker once (space-separated when the description is
nonempty); and a second call on the updated record reports success and
issues no update, so two calls never add the marker twice. -/
theorem C4_no_double_marking (d : DreamRec) (marker : String) :
    (update_dream_description (.ok (some d)) marker).1 = true
    ∧ (containsLower marker (d.description.getD "") = true →
        (update_dream_description (.ok (some d)) marker).2 = none)
    ∧ (containsLower marker (d.description.getD "") = false →
        (update_dream_description (.ok (some d)) marker).2
          = some (if d.description.getD "" ≠ "" then d.description.getD "" ++ " " ++ marker
                  else marker))
    ∧ update_dream_description
        (.ok (some (apply_update d (update_dream_description (.ok (some d)) marker).2)))
        marker = (true, none) := by
  by_cases hc : containsLower marker (d.description.getD "") = true
  · refine ⟨?_, fun _ => ?_, fun hf => ?_, ?_⟩
    · simp [update_dream_description, hc]
    · simp [update_dream_description, hc]
    · rw [hc] at hf; exact absurd hf (by simp)
    · simp [update_dream_description, apply_update, hc]
  · have hc' : containsLower marker (d.description.getD "") = false := by
      simpa using hc
    refine ⟨?_, fun ht => ?_, fun _ => ?_, ?_⟩
    · simp [update_dream_description, hc']
    · rw [hc'] at ht; exact absurd ht (by simp)
    · simp [update_dream_description, hc']
    · by_cases hemp : d.description.getD "" = ""
      · have hc0 : containsLower marker "" = false := hemp ▸ hc'
        have hupd : (update_dream_description (.ok (some d)) marker).2 = some marker := by
          simp [update_dream_description, hc', hemp, hc0]
        rw [hupd]
        simp [update_dream_description, apply_update, containsLower_self]
      · have hupd : (update_dream_description (.ok (some d)) marker).2
            = some (d.description.getD "" ++ " " ++ marker) := by
          simp [update_dream_description, hc', hemp]
        rw [hupd]
        simp [update_dream_description, apply_update, containsLower_append_marker]

/-- Witness for C4 at a concrete record and marker: the first call on a
record described "hello" appends " uprez" and the second call is a
no-op. -/
theorem C4_no_double_marking_witness :
    (update_dream_description (.ok (some ({ description := some "hello" } : DreamRec))) "uprez").1
      = true
    ∧ (update_dream_description (.ok (some ({ description := some "hello" } : DreamRec))) "uprez").2
      = some (if ("hello" : String) ≠ "" then "hello" ++ " " ++ "uprez" else "uprez")
    ∧ update_dream_description
        (.ok (some (apply_update { description := some "hello" }
          (update_dream_description (.ok (some ({ description := some "hello" } : DreamRec)))
            "uprez").2)))
        "uprez" = (true, none) := by
  have h := C4_no_double_marking ({ description := some "hello" } : DreamRec) "uprez"
  exact ⟨h.1, h.2.2.1 (by decide), h.2.2.2⟩

lemma wan_combo_step_outcomes (env : WanEnv) (existing combos : List String)
    (img : ImageFile) (source : String) (st : WanState) (combo : String) :
    wan_outcomes (wan_combo_step env existing combos img source st combo)
      = wan_outcomes st + 1 := by
  unfold wan_combo_step wan_outcomes
  by_cases hm : create_job_identifier img.name combo ∈ existing
  · simp [hm]
    omega
  · cases henv : env.create (wan_dream_name combos img combo)
        (wan_dream_description img combo) with
    | error e =>
      simp [hm, henv]
      omega
    | ok uuid =>
      cases hat : env.attach uuid with
      | error e =>
        simp [hm, henv, hat]
        omega
      | ok u =>
        simp [hm, henv, hat]
        omega

lemma wan_combo_fold_outcomes (env : WanEnv) (existing combos : List String)
    (img : ImageFile) (source : String) (cs : List String) : ∀ st : WanState,
    wan_outcomes (cs.foldl (wan_combo_step env existing combos img source) st)
      = wan_outcomes st + cs.length := by
  induction cs with
  | nil => intro st; simp
  | cons c t ih =>
    intro st
    rw [List.foldl_cons, ih, wan_combo_step_outcomes]
    simp only [List.length_cons]
    omega

lemma wan_image_step_outcomes (env : WanEnv) (existing combos : List String)
    (st : WanState) (img : ImageFile) :
    wan_outcomes (wan_image_step env existing combos st img)
      = wan_outcomes st + combos.length := by
  unfold wan_image_step
  by_cases hn : ∀ x ∈ combos, create_job_identifier img.name x ∈ existing
  · have hany : (combos.any fun c => !(existing.contains (create_job_identifier img.name c)))
        = false := by
      simp only [List.any_eq_false, Bool.not_eq_true']
      intro x hx
      simp [hn x hx]
    rw [hany]
    simp [wan_outcomes]
    omega
  · have hany : (combos.any fun c => !(existing.contains (create_job_identifier img.name c)))
        = true := by
      rw [List.any_eq_true]
      push_neg at hn
      rcases hn with ⟨x, hx, hnx⟩
      exact ⟨x, hx, by simp [hnx]⟩
    rw [hany]
    simp only [Bool.not_true, Bool.false_eq_true, if_false]
    cases st.uploaded_image_map.lookup img.path with
    | some src => exact wan_combo_fold_outcomes env existing combos img src combos st
    | none =>
      cases wan_upload_image env img.path with
      | error e =>
        simp [wan_outcomes]
        omega
      | ok p =>
        rcases p with ⟨src, w⟩
        rw [wan_combo_fold_outcomes]
        simp [wan_outcomes]

lemma wan_fold_outcomes (env : WanEnv) (existing combos : List String)
    (images : List ImageFile) : ∀ st : WanState,
    wan_outcomes (images.foldl (wan_image_step env existing combos) st)
      = wan_outcomes st + images.length * combos.length := by
  induction images with
  | nil => intro st; simp
  | cons img t ih =>
    intro st
    rw [List.foldl_cons, ih, wan_image_step_outcomes]
    simp only [List.length_cons]
    ring

/-- Claim C10: at the submission summary every (image, combo) pair has been
counted in exactly one of the three outcome counters:
`len(active_dreams) + skipped_count + failed_count = len(images) * len(combos)`,
for every environment and prior dedup index. -/
theorem C10_outcome_counters_partition (env : WanEnv) (images : List ImageFile)
    (combos : List String) (existing : List String) :
    (wan_submission env images combos existing).active_dreams.length
      + (wan_submission env images combos existing).skipped_count
      + (wan_submission env images combos existing).failed_count
      = images.length * combos.length := by
  have h := wan_fold_outcomes env existing combos images {}
  unfold wan_submission
  unfold wan_outcomes at h
  simpa using h

lemma wan_combo_fold_playlist (env : WanEnv) (combos : List String) (img : ImageFile)
    (src : String) (HC : ∀ n d, ∃ u, env.create n d = .ok u)
    (HA : ∀ u, env.attach u = .ok ()) (cs : List String) : ∀ st : WanState,
    (cs.foldl (wan_combo_step env [] combos img src) st).playlist
      = st.playlist ++ cs.map (fun c => wan_tagged_item combos img c) := by
  induction cs with
  | nil => intro st; simp
  | cons c t ih =>
    intro st
    rw [List.foldl_cons, ih]
    have hstep : (wan_combo_step env [] combos img src st c).playlist
        = st.playlist ++ [wan_tagged_item combos img c] := by
      unfold wan_combo_step
      rcases HC (wan_dream_name combos img c) (wan_dream_description img c) with ⟨u, hu⟩
      simp [hu, HA u, wan_tagged_item, wan_tagged_rec]
    rw [hstep]
    simp

lemma wan_image_step_playlist (env : WanEnv) (combos : List String)
    (HU : ∀ p, ∃ u, env.upload p = .ok u) (HC : ∀ n d, ∃ u, env.create n d = .ok u)
    (HA : ∀ u, env.attach u = .ok ()) (st : WanState) (img : ImageFile) :
    (wan_image_step env [] combos st img).playlist
      = st.playlist ++ combos.map (fun c => wan_tagged_item combos img c) := by
  unfold wan_image_step
  cases hcb : combos with
  | nil => simp
  | cons c0 t0 =>
    have hany : ((c0 :: t0).any
        fun c => !(([] : List String).contains (create_job_identifier img.name c))) = true := by
      simp [List.any_cons]
    rw [hany]
    simp only [Bool.not_true, Bool.false_eq_true, if_false]
    cases st.uploaded_image_map.lookup img.path with
    | some src => exact wan_combo_fold_playlist env (c0 :: t0) img src HC HA (c0 :: t0) st
    | none =>
      rcases HU img.path with ⟨u, hu⟩
      unfold wan_upload_image
      rw [hu]
      dsimp only
      cases (resolve_image_url (env.fetch_uploaded u)).url with
      | some v =>
        dsimp only
        rw [wan_combo_fold_playlist env (c0 :: t0) img v HC HA (c0 :: t0)]
      | none =>
        dsimp only
        rw [wan_combo_fold_playlist env (c0 :: t0) img u HC HA (c0 :: t0)]

lemma wan_run1_playlist (env : WanEnv) (images : List ImageFile) (combos : List String)
    (HU : ∀ p, ∃ u, env.upload p = .ok u) (HC : ∀ n d, ∃ u, env.create n d = .ok u)
    (HA : ∀ u, env.attach u = .ok ()) :
    (wan_submission env images combos []).playlist
      = images.flatMap (fun img => combos.map (fun c => wan_tagged_item combos img c)) := by
  suffices h : ∀ st : WanState, (images.foldl (wan_image_step env [] combos) st).playlist
      = st.playlist ++ images.flatMap (fun img => combos.map (fun c => wan_tagged_item combos img c)) by
    have h2 := h {}
    simpa [wan_submission] using h2
  induction images with
  | nil => intro st; simp
  | cons img t ih =>
    intro st
    rw [List.foldl_cons, ih, wan_image_step_playlist env combos HU HC HA]
    simp

lemma dedup_scan_step_mono (acc : List String) (it : PlaylistItem) (idf : String)
    (h : idf ∈ acc) : idf ∈ dedup_scan_step acc it := by
  unfold dedup_scan_step
  split
  · split
    · split
      · split
        · exact h
        · exact List.mem_append_left _ h
      · exact h
    · exact h
  · exact h

lemma dedup_scan_mem (items : List PlaylistItem) (idf : String) : ∀ acc : List String,
    (idf ∈ acc ∨ ∃ it ∈ items, it.type = "dream" ∧ ∃ d, it.dreamItem = some d ∧
      extract_identifier (text_to_check d) = some idf) →
    idf ∈ items.foldl dedup_scan_step acc := by
  induction items with
  | nil =>
    intro acc h
    rcases h with h | ⟨it, hit, _⟩
    · simpa using h
    · simp at hit
  | cons it t ih =>
    intro acc h
    rw [List.foldl_cons]
    rcases h with h | ⟨it', hit', hty, d, hd, hex⟩
    · exact ih _ (Or.inl (dedup_scan_step_mono _ _ _ h))
    · rcases List.mem_cons.mp hit' with rfl | hmem
      · refine ih _ (Or.inl ?_)
        have h1 : (it'.type == "dream") = true := by simp [hty]
        simp only [dedup_scan_step, h1, hd, hex, if_true]
        by_cases hc : acc.contains idf = true
        · simp only [hc, if_true]
          simp only [List.contains, List.elem_eq_mem, decide_eq_true_eq] at hc
          exact hc
        · simp only [Bool.not_eq_true] at hc
          simp only [hc, Bool.false_eq_true, if_false]
          exact List.mem_append_right _ (List.mem_singleton.mpr rfl)
      · exact ih _ (Or.inr ⟨it', hmem, hty, d, hd, hex⟩)

lemma create_job_identifier_data_ne_nil (n c : String) :
    (create_job_identifier n c).data ≠ [] := by
  unfold create_job_identifier
  rw [String.data_append, String.data_append]
  simp

/-- The tag written at creation time is recovered by the scan, given a
whitespace-free, marker-free identifier. -/
lemma wan_tagged_extract (combos : List String) (img : ImageFile) (c : String)
    (hid : firstOccur markerChars (create_job_identifier img.name c).data = none)
    (hws : ∀ ch ∈ (create_job_identifier img.name c).data, isPyWs ch = false) :
    extract_identifier (text_to_check (wan_tagged_rec combos img c))
      = some (create_job_identifier img.name c) :=
  extract_identifier_round_trip (create_job_identifier img.name c)
    (wan_dream_name combos img c) hid (create_job_identifier_data_ne_nil _ _) hws

lemma wan_image_step_all_known (env : WanEnv) (existing combos : List String)
    (st : WanState) (img : ImageFile)
    (h : ∀ c ∈ combos, create_job_identifier img.name c ∈ existing) :
    wan_image_step env existing combos st img
      = { st with skipped_count := st.skipped_count + combos.length } := by
  unfold wan_image_step
  have hany : (combos.any fun c => !(existing.contains (create_job_identifier img.name c)))
      = false := by
    simp only [List.any_eq_false, Bool.not_eq_true']
    intro x hx
    simp [h x hx]
  rw [hany]
  rfl

lemma wan_fold_all_known (env : WanEnv) (combos index : List String)
    (images : List ImageFile)
    (hall : ∀ img ∈ images, ∀ c ∈ combos, create_job_identifier img.name c ∈ index) :
    ∀ st : WanState, images.foldl (wan_image_step env index combos) st
      = { st with skipped_count := st.skipped_count + images.length * combos.length } := by
  induction images with
  | nil =>
    intro st
    simp
  | cons img t ih =>
    intro st
    rw [List.foldl_cons,
      wan_image_step_all_known env index combos st img (hall img (List.mem_cons_self img t)),
      ih (fun i hi c hc => hall i (List.mem_cons_of_mem img hi) c hc)]
    cases st
    simp [List.length_cons]
    ring

lemma wan_combo_step_skipped_empty (env : WanEnv) (combos : List String) (img : ImageFile)
    (src : String) (st : WanState) (c : String) :
    (wan_combo_step env [] combos img src st c).skipped_count = st.skipped_count := by
  unfold wan_combo_step
  rcases henv : env.create (wan_dream_name combos img c) (wan_dream_description img c) with e | u
  · simp [henv]
  · rcases hat : env.attach u with e | v
    · simp [henv, hat]
    · simp [henv, hat]

lemma wan_combo_fold_skipped_empty (env : WanEnv) (combos : List String) (img : ImageFile)
    (src : String) (cs : List String) : ∀ st : WanState,
    (cs.foldl (wan_combo_step env [] combos img src) st).skipped_count = st.skipped_count := by
  induction cs with
  | nil => intro st; simp
  | cons c t ih =>
    intro st
    rw [List.foldl_cons, ih, wan_combo_step_skipped_empty]

lemma wan_image_step_skipped_empty (env : WanEnv) (combos : List String)
    (st : WanState) (img : ImageFile) :
    (wan_image_step env [] combos st img).skipped_count = st.skipped_count := by
  unfold wan_image_step
  cases hcb : combos with
  | nil => simp
  | cons c0 t0 =>
    have hany : ((c0 :: t0).any
        fun c => !(([] : List String).contains (create_job_identifier img.name c))) = true := by
      simp [List.any_cons]
    rw [hany]
    simp only [Bool.not_true, Bool.false_eq_true, if_false]
    cases st.uploaded_image_map.lookup img.path with
    | some src => exact wan_combo_fold_skipped_empty env (c0 :: t0) img src (c0 :: t0) st
    | none =>
      cases wan_upload_image env img.path with
      | error e => simp
      | ok p =>
        rcases p with ⟨src, w⟩
        rw [wan_combo_fold_skipped_empty env (c0 :: t0) img src (c0 :: t0)]

lemma wan_submission_empty_index_skipped (env : WanEnv) (images : List ImageFile)
    (combos : List String) :
    (wan_submission env images combos []).skipped_count = 0 := by
  suffices h : ∀ st : WanState, (images.foldl (wan_image_step env [] combos) st).skipped_count
      = st.skipped_count by
    exact h {}
  induction images with
  | nil => intro st; simp
  | cons img t ih =>
    intro st
    rw [List.foldl_cons, ih, wan_image_step_skipped_empty]

/-- Claim C2 (amended): when every derived identifier is whitespace-free and
marker-free (in particular when image file names contain no whitespace
and no "BATCH_IDENTIFIER:" substring), the identifier tagged at
submission time is recovered exactly by the dedup index builder, and
re-submitting the same WorkUnit set against the collection produced by a
fully successful first run creates zero new jobs: every unit is skipped. -/
theorem C2_dedup_idempotent_amended (env : WanEnv) (images : List ImageFile)
    (combos : List String)
    (HU : ∀ p, ∃ u, env.upload p = Except.ok u)
    (HC : ∀ n d, ∃ u, env.create n d = Except.ok u)
    (HA : ∀ u, env.attach u = Except.ok ())
    (HG : ∀ img ∈ images, ∀ c ∈ combos,
      firstOccur markerChars (create_job_identifier img.name c).data = none
      ∧ ∀ ch ∈ (create_job_identifier img.name c).data, isPyWs ch = false) :
    (∀ img ∈ images, ∀ c ∈ combos,
      create_job_identifier img.name c
        ∈ get_existing_dream_identifiers
            (Except.ok (wan_submission env images combos []).playlist))
    ∧ wan_submission env images combos
        (get_existing_dream_identifiers
          (Except.ok (wan_submission env images combos []).playlist))
      = { skipped_count := images.length * combos.length } := by
  have hmem : ∀ img ∈ images, ∀ c ∈ combos,
      create_job_identifier img.name c
        ∈ get_existing_dream_identifiers
            (Except.ok (wan_submission env images combos []).playlist) := by
    intro img himg c hc
    show create_job_identifier img.name c
      ∈ (wan_submission env images combos []).playlist.foldl dedup_scan_step []
    refine dedup_scan_mem _ _ []
      (Or.inr ⟨wan_tagged_item combos img c, ?_, rfl, wan_tagged_rec combos img c, rfl, ?_⟩)
    · rw [wan_run1_playlist env images combos HU HC HA]
      exact List.mem_flatMap.mpr ⟨img, himg, List.mem_map_of_mem _ hc⟩
    · exact wan_tagged_extract combos img c (HG img himg c hc).1 (HG img himg c hc).2
  refine ⟨hmem, ?_⟩
  have h2 := wan_fold_all_known env combos
    (get_existing_dream_identifiers
      (Except.ok (wan_submission env images combos []).playlist)) images hmem {}
  unfold wan_submission at h2 ⊢
  rw [h2]
  simp

/-- Witness for C2 (amended) at one image ("cat.png") and one combo. -/
theorem C2_dedup_idempotent_amended_witness :
    (∀ img ∈ [imgPlain], ∀ c ∈ ["x"],
      create_job_identifier img.name c
        ∈ get_existing_dream_identifiers
            (Except.ok (wan_submission wanEnvOk [imgPlain] ["x"] []).playlist))
    ∧ wan_submission wanEnvOk [imgPlain] ["x"]
        (get_existing_dream_identifiers
          (Except.ok (wan_submission wanEnvOk [imgPlain] ["x"] []).playlist))
      = { skipped_count := [imgPlain].length * ["x"].length } :=
  C2_dedup_idempotent_amended wanEnvOk [imgPlain] ["x"]
    (fun _ => ⟨"up-1", rfl⟩) (fun _ _ => ⟨"dream-1", rfl⟩) (fun _ => rfl) (by decide)

/-- Claim C2 counterexample: for the image file "a b.png" (a legal file name
containing a space) the identifier embedded at submission time is
"a b.png:d41d8cd9", but the dedup index builder recovers only "a" — the
token stops at the first whitespace — so a second submission of the same
WorkUnit set against the first run's collection creates one new job
instead of zero. -/
theorem C2_dedup_idempotent_counterexample :
    create_job_identifier imgSpace.name "" = "a b.png:d41d8cd9"
    ∧ get_existing_dream_identifiers
        (Except.ok (wan_submission wanEnvOk [imgSpace] [""] []).playlist) = ["a"]
    ∧ (wan_submission wanEnvOk [imgSpace] [""]
        (get_existing_dream_identifiers
          (Except.ok (wan_submission wanEnvOk [imgSpace] [""] []).playlist))).created.length
      = 1 := by
  refine ⟨by decide, by decide, by decide⟩

lemma uprez_unit_step_fields (env : UprezEnv) (marker : String) (st : UprezState)
    (d : DreamRec) :
    (uprez_unit_step env marker st d).active_jobs
        = st.active_jobs ++ uprez_contrib env d
    ∧ (uprez_unit_step env marker st d).updates
        = st.updates ++ uprez_update_contrib env marker d := by
  unfold uprez_unit_step uprez_contrib uprez_update_contrib
  cases env.create (uprez_job_name d) (uprez_job_desc d) with
  | error e => simp
  | ok u =>
    dsimp only
    cases env.attach u with
    | error e =>
      dsimp only
      cases (update_dream_description (env.get_dream d.uuid) marker).2 with
      | some nd => simp
      | none => simp
    | ok v =>
      dsimp only
      cases (update_dream_description (env.get_dream d.uuid) marker).2 with
      | some nd => simp
      | none => simp

lemma uprez_fold_fields (env : UprezEnv) (marker : String) (units : List DreamRec) :
    ∀ st : UprezState,
    (units.foldl (uprez_unit_step env marker) st).active_jobs
        = st.active_jobs ++ units.flatMap (uprez_contrib env)
    ∧ (units.foldl (uprez_unit_step env marker) st).updates
        = st.updates ++ units.flatMap (uprez_update_contrib env marker) := by
  induction units with
  | nil => intro st; simp
  | cons d t ih =>
    intro st
    rw [List.foldl_cons]
    have h1 := (ih (uprez_unit_step env marker st d)).1
    have h2 := (ih (uprez_unit_step env marker st d)).2
    have hs := uprez_unit_step_fields env marker st d
    constructor
    · rw [h1, hs.1]
      simp
    · rw [h2, hs.2]
      simp

/-- Claim C9 (amended): in the uprez script, a failed add-to-collection call
after a successful creation does not discard the unit: its id still
enters the polled batch `active_jobs`, the source dream is still marked,
and sibling submissions are unaffected — `active_jobs` and the issued
mark updates are exactly the concatenation of the per-unit
contributions, which ignore the attach outcome.  (In the wan script the
same failure is caught by the shared creation handler and the unit is
counted failed and not polled; see the counterexample.) -/
theorem C9_attach_failure_keeps_job_amended (env : UprezEnv) (marker : String)
    (units : List DreamRec) (d : DreamRec) (u : String)
    (hd : d ∈ units)
    (hcr : env.create (uprez_job_name d) (uprez_job_desc d) = Except.ok u)
    (hat : env.attach u = Except.error ()) :
    u ∈ (uprez_submission env marker units).active_jobs
    ∧ (uprez_submission env marker units).active_jobs
        = units.flatMap (uprez_contrib env)
    ∧ (uprez_submission env marker units).updates
        = units.flatMap (uprez_update_contrib env marker) := by
  have h := uprez_fold_fields env marker units ({} : UprezState)
  have hact : (uprez_submission env marker units).active_jobs
      = units.flatMap (uprez_contrib env) := by
    unfold uprez_submission
    rw [h.1]
    simp
  have hupd : (uprez_submission env marker units).updates
      = units.flatMap (uprez_update_contrib env marker) := by
    unfold uprez_submission
    rw [h.2]
    simp
  refine ⟨?_, hact, hupd⟩
  rw [hact]
  refine List.mem_flatMap.mpr ⟨d, hd, ?_⟩
  unfold uprez_contrib
  rw [hcr]
  exact List.mem_singleton.mpr rfl

/-- Witness for C9 (amended): one unit, creation succeeds, attach fails;
the job is polled and the source dream still marked. -/
theorem C9_attach_failure_keeps_job_amended_witness :
    "new-1" ∈ (uprez_submission uprezEnvAttachFail "uprez" [uprezUnit1]).active_jobs
    ∧ (uprez_submission uprezEnvAttachFail "uprez" [uprezUnit1]).active_jobs
        = [uprezUnit1].flatMap (uprez_contrib uprezEnvAttachFail)
    ∧ (uprez_submission uprezEnvAttachFail "uprez" [uprezUnit1]).updates
        = [uprezUnit1].flatMap (uprez_update_contrib uprezEnvAttachFail "uprez") :=
  C9_attach_failure_keeps_job_amended uprezEnvAttachFail "uprez" [uprezUnit1] uprezUnit1
    "new-1" (List.mem_singleton.mpr rfl) rfl rfl

/-- Claim C9 counterexample: in the wan script creation and attachment share
one exception handler, so when the attach raises after a successful
creation, the job was created remotely (`created` has one record) but it
is counted failed and its id does not enter the polled batch,
contradicting the claim that the unit is still counted as submitted and
still polled. -/
theorem C9_attach_failure_counterexample :
    (wan_submission wanEnvAttachFail [imgPlain] ["x"] []).created.length = 1
    ∧ (wan_submission wanEnvAttachFail [imgPlain] ["x"] []).active_dreams = []
    ∧ (wan_submission wanEnvAttachFail [imgPlain] ["x"] []).failed_count = 1 := by
  refine ⟨by decide, by decide, by decide⟩

lemma wan_poll_round_mem (q : String → Except Unit DreamRec) (pending : List String)
    (u : String) (h : u ∈ pending) :
    u ∈ wan_poll_round q pending ↔ poll_status_terminal q u = false := by
  unfold wan_poll_round
  dsimp only
  constructor
  · intro hin
    rcases List.mem_filter.mp hin with ⟨-, hnc⟩
    by_contra hne
    have hck : poll_status_terminal q u = true := by
      cases hcc : poll_status_terminal q u
      · exact absurd hcc hne
      · rfl
    have hmem : u ∈ pending.filter (fun u => poll_status_terminal q u) :=
      List.mem_filter.mpr ⟨h, hck⟩
    have hcon : (pending.filter (fun u => poll_status_terminal q u)).contains u = true := by
      simp [List.contains, List.elem_eq_mem, hmem]
    simp [hcon] at hnc
    rcases hnc with hnc | hnc
    · exact hnc h
    · exact (by simp [hck] : poll_status_terminal q u ≠ false) hnc
  · intro hck
    refine List.mem_filter.mpr ⟨h, ?_⟩
    have hnm : u ∉ pending.filter (fun u => poll_status_terminal q u) := by
      intro hmem
      rcases List.mem_filter.mp hmem with ⟨-, hch⟩
      rw [hck] at hch
      exact absurd hch (by simp)
    simp [List.contains, List.elem_eq_mem, hnm]

lemma qwen_poll_step_fst (q : String → Except Unit DreamRec) (dl : String → Bool)
    (acc : List (String × Nat) × Nat) (p : String × Nat) :
    (qwen_poll_step q dl acc p).1
      = acc.1 ++ (if poll_status_terminal q p.1 then [] else [p]) := by
  unfold qwen_poll_step poll_status_terminal
  cases q p.1 with
  | error e => simp
  | ok d =>
    by_cases h1 : (d.status == some "processed") = true
    · by_cases hu : (if d.thumbnail.getD "" = "" then d.video.getD ""
          else d.thumbnail.getD "") = ""
      · simp [h1, hu]
      · by_cases hdl : dl (if d.thumbnail.getD "" = "" then d.video.getD ""
            else d.thumbnail.getD "") = true
        · simp [h1, hu, hdl]
        · simp only [Bool.not_eq_true] at hdl
          simp [h1, hu, hdl]
    · simp only [Bool.not_eq_true] at h1
      by_cases h2 : (d.status == some "failed") = true
      · simp [h1, h2]
      · simp only [Bool.not_eq_true] at h2
        simp [h1, h2]

lemma qwen_poll_fold_fst (q : String → Except Unit DreamRec) (dl : String → Bool)
    (pending : List (String × Nat)) : ∀ acc : List (String × Nat) × Nat,
    (pending.foldl (qwen_poll_step q dl) acc).1
      = acc.1 ++ pending.filter (fun p => !(poll_status_terminal q p.1)) := by
  induction pending with
  | nil => intro acc; simp
  | cons p t ih =>
    intro acc
    rw [List.foldl_cons, ih, qwen_poll_step_fst]
    cases hck : poll_status_terminal q p.1 with
    | true => simp [List.filter_cons, hck]
    | false => simp [List.filter_cons, hck]

lemma qwen_poll_round_mem (q : String → Except Unit DreamRec) (dl : String → Bool)
    (pending : List (String × Nat)) (p : String × Nat) (h : p ∈ pending) :
    p ∈ (qwen_poll_round q dl pending).1 ↔ poll_status_terminal q p.1 = false := by
  unfold qwen_poll_round
  rw [qwen_poll_fold_fst]
  constructor
  · intro hin
    have hin' : p ∈ pending.filter (fun p => !(poll_status_terminal q p.1)) := by
      simpa using hin
    have h2 := List.mem_filter.mp hin'
    simpa using h2.2
  · intro hck
    have h2 : p ∈ pending.filter (fun p => !(poll_status_terminal q p.1)) :=
      List.mem_filter.mpr ⟨h, by simp [hck]⟩
    simpa using h2

/-- Claim C5: in every polling round, of both the wan and the qwen script, an
id is removed from the pending set exactly when its status query in that
round returned a terminal status; a raising query and an unknown or
missing status leave the id pending. -/
theorem C5_poll_round_invariant :
    (∀ (q : String → Except Unit DreamRec) (pending : List String) (u : String),
      u ∈ pending → (u ∈ wan_poll_round q pending ↔ poll_status_terminal q u = false))
    ∧ (∀ (q : String → Except Unit DreamRec) (pending : List String) (u : String),
      u ∈ pending → q u = Except.error () → u ∈ wan_poll_round q pending)
    ∧ (∀ (q : String → Except Unit DreamRec) (pending : List String) (u : String)
        (d : DreamRec), u ∈ pending → q u = Except.ok d →
        d.status ≠ some "processed" → d.status ≠ some "failed" →
        u ∈ wan_poll_round q pending)
    ∧ (∀ (q : String → Except Unit DreamRec) (dl : String → Bool)
        (pending : List (String × Nat)) (p : String × Nat), p ∈ pending →
        (p ∈ (qwen_poll_round q dl pending).1 ↔ poll_status_terminal q p.1 = false)) := by
  refine ⟨wan_poll_round_mem, ?_, ?_, qwen_poll_round_mem⟩
  · intro q pending u h hq
    refine (wan_poll_round_mem q pending u h).mpr ?_
    unfold poll_status_terminal
    rw [hq]
  · intro q pending u d h hq h1 h2
    refine (wan_poll_round_mem q pending u h).mpr ?_
    unfold poll_status_terminal
    rw [hq]
    simp [h1, h2]

/-- Witness for C5 at a two-id round where one id reports "processed",
plus an erroring query and an unknown status that stay pending. -/
theorem C5_poll_round_invariant_witness :
    ("a" ∈ wan_poll_round
        (fun u => if u = "b" then Except.ok { status := some "processed" }
                  else Except.ok { status := some "rendering" }) ["a", "b"]
      ↔ poll_status_terminal
          (fun u => if u = "b" then Except.ok { status := some "processed" }
                    else Except.ok { status := some "rendering" }) "a" = false)
    ∧ "a" ∈ wan_poll_round (fun _ => Except.error ()) ["a"]
    ∧ "a" ∈ wan_poll_round (fun _ => Except.ok { status := some "rendering" }) ["a"]
    ∧ (("a", 1) ∈ (qwen_poll_round (fun _ => Except.error ()) (fun _ => true) [("a", 1)]).1
      ↔ poll_status_terminal (fun _ => Except.error ()) "a" = false) := by
  refine ⟨C5_poll_round_invariant.1 _ _ _ (by decide), ?_, ?_, ?_⟩
  · exact C5_poll_round_invariant.2.1 _ _ _ (by decide) rfl
  · exact C5_poll_round_invariant.2.2.1 _ _ _ _ (by decide) rfl (by decide) (by decide)
  · exact C5_poll_round_invariant.2.2.2 _ _ _ _ (by decide)

lemma wan_poll_interval_pos : 0 < wan_poll_interval := by decide

lemma wan_poll_round_keeps_all (q : String → Except Unit DreamRec) (pending : List String)
    (h : ∀ u ∈ pending, poll_status_terminal q u = false) :
    wan_poll_round q pending = pending := by
  unfold wan_poll_round
  have hc : pending.filter (fun u => poll_status_terminal q u) = [] := by
    rw [List.filter_eq_nil]
    intro a ha
    simp [h a ha]
  rw [hc]
  rw [List.filter_eq_self.mpr]
  intro a ha
  rfl

lemma wan_poll_loop_never_terminal (q : Nat → String → Except Unit DreamRec)
    (interval maxWait : Nat) (hI : 0 < interval)
    (hnt : ∀ t u, poll_status_terminal (q t) u = false) :
    ∀ (n elapsed : Nat) (pending : List String), maxWait - elapsed ≤ n →
      elapsed < maxWait + interval →
      (wan_poll_loop q interval maxWait hI elapsed pending).1 = pending
      ∧ (wan_poll_loop q interval maxWait hI elapsed pending).2 < maxWait + interval := by
  intro n
  induction n with
  | zero =>
    intro elapsed pending hle hlt
    have hnl : ¬ elapsed < maxWait := by omega
    rw [wan_poll_loop]
    by_cases hp : pending = []
    · simp [hp, hnl, hlt]
    · simp [hp, hnl, hlt]
  | succ n ih =>
    intro elapsed pending hle hlt
    rw [wan_poll_loop]
    by_cases hp : pending = []
    · simp [hp, hlt]
    · by_cases hm : elapsed < maxWait
      · have hround : wan_poll_round (q elapsed) pending = pending :=
          wan_poll_round_keeps_all (q elapsed) pending (fun u _ => hnt elapsed u)
        simp only [hp, if_false, hm, dif_pos, hround]
        have hrec := ih (elapsed + interval) pending (by omega) (by omega)
        simp [hp, hrec.1, hrec.2]
      · simp [hp, hm, hlt]

/-- Claim C6: when no id ever reports a terminal status, the poller returns
with the full original pending set and no later than
`maxWait + interval` after start; exceeding the deadline is a reported
outcome (the timeout message fires exactly when jobs remain), not an
error — the loop returns normally.  Instantiated in particular at the
script's constants, 7200 s deadline and 10 s interval. -/
theorem C6_deadline_respected (q : Nat → String → Except Unit DreamRec)
    (interval maxWait : Nat) (hI : 0 < interval) (pending : List String)
    (hnt : ∀ t u, poll_status_terminal (q t) u = false) :
    (wan_poll_loop q interval maxWait hI 0 pending).1 = pending
    ∧ (wan_poll_loop q interval maxWait hI 0 pending).2 < maxWait + interval
    ∧ (pending ≠ [] →
        wan_timeout_reported (wan_poll_loop q interval maxWait hI 0 pending) = true)
    ∧ (wan_poll_loop q wan_poll_interval wan_max_wait wan_poll_interval_pos 0 pending).1
        = pending
    ∧ (wan_poll_loop q wan_poll_interval wan_max_wait wan_poll_interval_pos 0 pending).2
        < wan_max_wait + wan_poll_interval := by
  have h1 := wan_poll_loop_never_terminal q interval maxWait hI hnt (maxWait) 0 pending
    (by omega) (by omega)
  have h2 := wan_poll_loop_never_terminal q wan_poll_interval wan_max_wait
    wan_poll_interval_pos hnt wan_max_wait 0 pending (by omega)
    (by simp [wan_max_wait, wan_poll_interval])
  refine ⟨h1.1, h1.2, ?_, h2.1, h2.2⟩
  intro hp
  unfold wan_timeout_reported
  rw [h1.1]
  cases pending with
  | nil => exact absurd rfl hp
  | cons a t => rfl

/-- Witness for C6: two ids polled by an always-raising query against a
20 s deadline with a 10 s interval. -/
theorem C6_deadline_respected_witness :
    (wan_poll_loop (fun _ _ => Except.error ()) 10 20 (by decide) 0 ["a", "b"]).1 = ["a", "b"]
    ∧ (wan_poll_loop (fun _ _ => Except.error ()) 10 20 (by decide) 0 ["a", "b"]).2 < 20 + 10
    ∧ (["a", "b"] ≠ ([] : List String) →
        wan_timeout_reported
          (wan_poll_loop (fun _ _ => Except.error ()) 10 20 (by decide) 0 ["a", "b"]) = true)
    ∧ (wan_poll_loop (fun _ _ => Except.error ()) wan_poll_interval wan_max_wait
        wan_poll_interval_pos 0 ["a", "b"]).1 = ["a", "b"]
    ∧ (wan_poll_loop (fun _ _ => Except.error ()) wan_poll_interval wan_max_wait
        wan_poll_interval_pos 0 ["a", "b"]).2 < wan_max_wait + wan_poll_interval :=
  C6_deadline_respected (fun _ _ => Except.error ()) 10 20 (by decide) ["a", "b"]
    (fun _ _ => rfl)

/-- One unfolding of the retry loop, phrased through `attempt_url`. -/
lemma resolve_go_succ (fetch : Nat → Except Unit DreamRec) (attempt r : Nat) :
    resolve_go fetch attempt (r + 1)
      = match attempt_url fetch attempt with
        | some u => ⟨some u, 1, 0⟩
        | none =>
          if r = 0 then ⟨none, 1, 0⟩
          else ⟨(resolve_go fetch (attempt + 1) r).url,
                (resolve_go fetch (attempt + 1) r).calls + 1,
                (resolve_go fetch (attempt + 1) r).sleeps + 1⟩ := by
  rcases hf : fetch attempt with e | d
  · simp [resolve_go, attempt_url, hf]
  · rcases hp : pick_url d with _ | u
    · simp [resolve_go, attempt_url, hf, hp]
    · simp [resolve_go, attempt_url, hf, hp]

lemma resolve_go_calls_le (fetch : Nat → Except Unit DreamRec) :
    ∀ (remaining attempt : Nat), (resolve_go fetch attempt remaining).calls ≤ remaining := by
  intro remaining
  induction remaining with
  | zero => intro attempt; simp [resolve_go]
  | succ r ih =>
    intro attempt
    rw [resolve_go_succ]
    rcases ha : attempt_url fetch attempt with _ | u
    · by_cases hr : r = 0
      · simp [hr]
      · have := ih (attempt + 1)
        simp only [hr, if_false]
        simp
        omega
    · simp

lemma resolve_go_sleeps_calls (fetch : Nat → Except Unit DreamRec) :
    ∀ (remaining attempt : Nat), 0 < remaining →
    (resolve_go fetch attempt remaining).sleeps + 1
      = (resolve_go fetch attempt remaining).calls := by
  intro remaining
  induction remaining with
  | zero => intro attempt h; omega
  | succ r ih =>
    intro attempt _
    rw [resolve_go_succ]
    rcases ha : attempt_url fetch attempt with _ | u
    · by_cases hr : r = 0
      · simp [hr]
      · have := ih (attempt + 1) (by omega)
        simp only [hr, if_false]
        simp
        omega
    · simp

lemma resolve_go_exhausted (fetch : Nat → Except Unit DreamRec) :
    ∀ (remaining attempt : Nat), 0 < remaining →
    (∀ i, i < remaining → attempt_url fetch (attempt + i) = none) →
    resolve_go fetch attempt remaining = ⟨none, remaining, remaining - 1⟩ := by
  intro remaining
  induction remaining with
  | zero => intro attempt h; omega
  | succ r ih =>
    intro attempt _ hnone
    have h0 : attempt_url fetch attempt = none := by
      have := hnone 0 (by omega)
      simpa using this
    rw [resolve_go_succ, h0]
    by_cases hr : r = 0
    · simp [hr]
    · have hrec := ih (attempt + 1) (by omega) (fun i hi => by
        rw [show attempt + 1 + i = attempt + (i + 1) by omega]
        exact hnone (i + 1) (by omega))
      simp only [hr, if_false]
      rw [hrec]
      simp
      omega

lemma resolve_go_first_success (fetch : Nat → Except Unit DreamRec) (u : String) :
    ∀ (i remaining attempt : Nat), i < remaining →
    attempt_url fetch (attempt + i) = some u →
    (∀ j, j < i → attempt_url fetch (attempt + j) = none) →
    resolve_go fetch attempt remaining = ⟨some u, i + 1, i⟩ := by
  intro i
  induction i with
  | zero =>
    intro remaining attempt hlt hsome _
    cases remaining with
    | zero => omega
    | succ r =>
      have hs : attempt_url fetch attempt = some u := by simpa using hsome
      rw [resolve_go_succ, hs]
  | succ i ih =>
    intro remaining attempt hlt hsome hnone
    cases remaining with
    | zero => omega
    | succ r =>
      have h0 : attempt_url fetch attempt = none := by
        have := hnone 0 (by omega)
        simpa using this
      have hr : r ≠ 0 := by omega
      have hrec := ih r (attempt + 1) (by omega)
        (by rw [show attempt + 1 + i = attempt + (i + 1) by omega]; exact hsome)
        (fun j hj => by
          rw [show attempt + 1 + j = attempt + (j + 1) by omega]
          exact hnone (j + 1) (by omega))
      rw [resolve_go_succ, h0]
      simp only [hr, if_false]
      rw [hrec]

lemma good_url_some_starts (o : Option String) (u : String) (h : good_url o = some u) :
    startsWithHttp u = true := by
  rcases o with _ | v
  · simp [good_url] at h
  · simp only [good_url] at h
    by_cases hs : startsWithHttp v = true
    · rw [if_pos hs] at h
      cases h
      exact hs
    · rw [if_neg hs] at h
      exact absurd h (by simp)

/-- The `for field in [...]` loop of lines 208-213 as a priority chain. -/
lemma pick_url_eq (d : DreamRec) :
    pick_url d = match good_url d.original_video with
      | some u => some u
      | none => match good_url d.video with
        | some u => some u
        | none => good_url d.thumbnail := by
  unfold pick_url
  simp only [List.findSome?_cons]
  rcases good_url d.original_video with _ | u
  · rcases good_url d.video with _ | v
    · cases good_url d.thumbnail <;> rfl
    · rfl
  · rfl

/-- Claim C8: the upload URL resolution makes at most 10 `get_dream` calls with
one fixed-delay sleep between consecutive attempts (`sleeps + 1 = calls`);
it tries `original_video`, `video`, `thumbnail` in that priority order
and accepts only strings starting with "http"; it stops at the first
attempt that yields a URL; when all 10 attempts are exhausted it returns
no URL after 10 calls and 9 sleeps, the pipeline falls back to the raw
uploaded uuid with the warning flag set, and the image still proceeds
into the per-combo submission loop — the run does not abort. -/
theorem C8_upload_url_resolution :
    (∀ fetch : Nat → Except Unit DreamRec,
      (resolve_image_url fetch).calls ≤ max_retries
      ∧ (resolve_image_url fetch).sleeps + 1 = (resolve_image_url fetch).calls)
    ∧ (∀ fetch : Nat → Except Unit DreamRec,
        (∀ i, i < max_retries → attempt_url fetch i = none) →
        resolve_image_url fetch = ⟨none, 10, 9⟩)
    ∧ (∀ (fetch : Nat → Except Unit DreamRec) (i : Nat) (u : String), i < max_retries →
        attempt_url fetch i = some u → (∀ j, j < i → attempt_url fetch j = none) →
        resolve_image_url fetch = ⟨some u, i + 1, i⟩)
    ∧ (∀ (d : DreamRec) (u : String), good_url d.original_video = some u →
        pick_url d = some u)
    ∧ (∀ (d : DreamRec) (u : String), good_url d.original_video = none →
        good_url d.video = some u → pick_url d = some u)
    ∧ (∀ d : DreamRec, good_url d.original_video = none → good_url d.video = none →
        pick_url d = good_url d.thumbnail)
    ∧ (∀ (d : DreamRec) (u : String), pick_url d = some u → startsWithHttp u = true)
    ∧ (∀ (env : WanEnv) (path uuid : String), env.upload path = Except.ok uuid →
        (resolve_image_url (env.fetch_uploaded uuid)).url = none →
        wan_upload_image env path = Except.ok (uuid, true))
    ∧ (∀ (env : WanEnv) (existing combos : List String) (st : WanState) (img : ImageFile)
        (uuid : String),
        st.uploaded_image_map.lookup img.path = none →
        (combos.any fun c => !(existing.contains (create_job_identifier img.name c))) = true →
        wan_upload_image env img.path = Except.ok (uuid, true) →
        wan_image_step env existing combos st img
          = combos.foldl (wan_combo_step env existing combos img uuid)
              { st with uploaded_image_map := st.uploaded_image_map ++ [(img.path, uuid)] }) := by
  refine ⟨?_, ?_, ?_, ?_, ?_, ?_, ?_, ?_, ?_⟩
  · intro fetch
    exact ⟨resolve_go_calls_le fetch max_retries 0,
      resolve_go_sleeps_calls fetch max_retries 0 (by decide)⟩
  · intro fetch hnone
    exact resolve_go_exhausted fetch max_retries 0 (by decide)
      (fun i hi => by simpa using hnone i hi)
  · intro fetch i u hi hsome hnone
    exact resolve_go_first_success fetch u i max_retries 0 hi (by simpa using hsome)
      (fun j hj => by simpa using hnone j hj)
  · intro d u h
    rw [pick_url_eq, h]
  · intro d u h1 h2
    rw [pick_url_eq, h1, h2]
  · intro d h1 h2
    rw [pick_url_eq, h1, h2]
  · intro d u h
    rw [pick_url_eq] at h
    rcases h1 : good_url d.original_video with _ | v
    · simp only [h1] at h
      rcases h2 : good_url d.video with _ | w
      · simp only [h2] at h
        exact good_url_some_starts _ _ h
      · simp only [h2] at h
        cases h
        exact good_url_some_starts _ _ h2
    · simp only [h1] at h
      cases h
      exact good_url_some_starts _ _ h1
  · intro env path uuid hup hres
    unfold wan_upload_image
    rw [hup]
    dsimp only
    rw [hres]
  · intro env existing combos st img uuid hlk hany hup
    unfold wan_image_step
    rw [hany]
    simp only [Bool.not_true, Bool.false_eq_true, if_false]
    rw [hlk, hup]

/-- Witness for C8: an always-raising fetch exhausts the 10 attempts
(10 calls, 9 sleeps, no URL); a thumbnail-only record resolves at the
first attempt; the no-URL pipeline falls back to the raw uuid and still
runs the combo loop. -/
theorem C8_upload_url_resolution_witness :
    resolve_image_url (fun _ => Except.error ()) = ⟨none, 10, 9⟩
    ∧ resolve_image_url (fun _ => Except.ok { thumbnail := some "http://t" })
        = ⟨some "http://t", 0 + 1, 0⟩
    ∧ wan_upload_image wanEnvNoUrl "/imgs/cat.png" = Except.ok ("up-9", true)
    ∧ wan_image_step wanEnvNoUrl [] ["x"] {} imgPlain
        = ["x"].foldl (wan_combo_step wanEnvNoUrl [] ["x"] imgPlain "up-9")
            { ({} : WanState) with
                uploaded_image_map := ([] : List (String × String)) ++ [(imgPlain.path, "up-9")] } := by
  refine ⟨?_, ?_, ?_, ?_⟩
  · exact C8_upload_url_resolution.2.1 (fun _ => Except.error ()) (by decide)
  · exact C8_upload_url_resolution.2.2.1 (fun _ => Except.ok { thumbnail := some "http://t" })
      0 "http://t" (by decide) (by decide) (fun j hj => by omega)
  · exact C8_upload_url_resolution.2.2.2.2.2.2.2.1 wanEnvNoUrl "/imgs/cat.png" "up-9" rfl
      (by decide)
  · exact C8_upload_url_resolution.2.2.2.2.2.2.2.2 wanEnvNoUrl [] ["x"] {} imgPlain "up-9"
      rfl (by decide) (C8_upload_url_resolution.2.2.2.2.2.2.2.1 wanEnvNoUrl imgPlain.path
        "up-9" rfl (by decide))

lemma length_filterMap_all_eq {α β : Type} (f : α → Option β) (l : List α) :
    (l.filterMap f).length = l.length ↔ l.all (fun x => (f x).isSome) = true := by
  induction l with
  | nil => simp
  | cons a t ih =>
    rcases hf : f a with _ | b
    · have hle := List.length_filterMap_le f t
      simp [List.filterMap_cons, hf, List.all_cons]
      omega
    · simp [List.filterMap_cons, hf, List.all_cons, ih]

lemma expected_calls_small (take r : Nat) (h0 : 0 < r) (h : r < take) (A : Bool) :
    expected_calls take r A = 1 := by
  unfold expected_calls
  rw [if_neg (by omega)]
  have hmod : r % take = 0 ∧ A = false ↔ False := by
    constructor
    · rintro ⟨hm, -⟩
      rw [Nat.mod_eq_of_lt h] at hm
      omega
    · exact False.elim
  have harith : (r + take - 1) / take = 1 := by
    have he : r + take - 1 = (r - 1) + take := by omega
    rw [he, Nat.add_div_right _ (by omega)]
    rw [Nat.div_eq_of_lt (by omega)]
  rw [harith]
  simp only [hmod, if_false]

lemma expected_calls_exact (take : Nat) (ht : 0 < take) (A : Bool) :
    expected_calls take take A = if A = true then 1 else 2 := by
  unfold expected_calls
  rw [if_neg (by omega)]
  have harith : (take + take - 1) / take = 1 := by
    have he : take + take - 1 = (take - 1) + take := by omega
    rw [he, Nat.add_div_right _ ht, Nat.div_eq_of_lt (by omega)]
  rw [harith, Nat.mod_self]
  cases A with
  | true => simp
  | false => simp

lemma expected_calls_big (take r : Nat) (ht : 0 < take) (h : take < r) (A : Bool) :
    expected_calls take r A = 1 + expected_calls take (r - take) A := by
  unfold expected_calls
  have hr0 : ¬ r = 0 := by omega
  have hrt0 : ¬ r - take = 0 := by omega
  rw [if_neg hr0, if_neg hrt0]
  have hmod : r % take = (r - take) % take := by
    conv_lhs => rw [show r = (r - take) + take by omega]
    rw [Nat.add_mod_right]
  have harith : (r + take - 1) / take = ((r - take) + take - 1) / take + 1 := by
    have he : r + take - 1 = (((r - take) + take - 1)) + take := by omega
    rw [he, Nat.add_div_right _ ht]
  rw [harith, hmod]
  generalize (if (r - take) % take = 0 ∧ A = false then 1 else 0) = c
  omega

lemma paginate_go_err (err : Nat → Bool) (items : List PlaylistItem) (take skip : Nat)
    (acc : List (DreamRec × Nat)) (calls : Nat) (seen : List PlaylistItem)
    (herr : err calls = true) :
    get_playlist_dreams_go err items take skip acc calls seen = ⟨acc, calls + 1, seen⟩ := by
  rw [get_playlist_dreams_go]
  simp [herr]

lemma paginate_go_empty_page (err : Nat → Bool) (items : List PlaylistItem) (take skip : Nat)
    (acc : List (DreamRec × Nat)) (calls : Nat) (seen : List PlaylistItem)
    (herr : err calls = false) (hpage : fetch_page items take skip = []) :
    get_playlist_dreams_go err items take skip acc calls seen
      = ⟨acc, calls + 1, seen⟩ := by
  rw [get_playlist_dreams_go]
  simp [herr, hpage]

lemma paginate_go_step (err : Nat → Bool) (items : List PlaylistItem) (take skip : Nat)
    (acc : List (DreamRec × Nat)) (calls : Nat) (seen : List PlaylistItem)
    (herr : err calls = false) (hpage : fetch_page items take skip ≠ []) :
    get_playlist_dreams_go err items take skip acc calls seen
      = (if (acc ++ (fetch_page items take skip).filterMap page_entry).length ≥ items.length
            ∨ (fetch_page items take skip).length < take
         then ⟨acc ++ (fetch_page items take skip).filterMap page_entry, calls + 1,
               seen ++ fetch_page items take skip⟩
         else get_playlist_dreams_go err items take (skip + take)
               (acc ++ (fetch_page items take skip).filterMap page_entry) (calls + 1)
               (seen ++ fetch_page items take skip)) := by
  rw [get_playlist_dreams_go]
  simp [herr, hpage]

lemma fetch_page_nonempty (items : List PlaylistItem) (take skip : Nat)
    (h : fetch_page items take skip ≠ []) : skip < items.length ∧ 0 < take := by
  constructor
  · by_contra hs
    apply h
    show (items.drop skip).take take = []
    rw [List.drop_eq_nil_of_le (by omega)]
    simp
  · by_contra hs
    apply h
    show (items.drop skip).take take = []
    rw [show take = 0 by omega]
    simp

lemma paginate_go_full (items : List PlaylistItem) (take : Nat) (ht : 0 < take) :
    ∀ (fuel skip calls : Nat), items.length - skip ≤ fuel → skip ≤ items.length →
    get_playlist_dreams_go (fun _ => false) items take skip
        ((items.take skip).filterMap page_entry) calls (items.take skip)
      = ⟨items.filterMap page_entry,
         calls + expected_calls take (items.length - skip)
           (items.all (fun it => (page_entry it).isSome)),
         items⟩ := by
  intro fuel
  induction fuel with
  | zero =>
    intro skip calls hf hle
    have hskip : skip = items.length := by omega
    subst hskip
    rw [paginate_go_empty_page _ _ _ _ _ _ _ rfl (by
      show (items.drop items.length).take take = []
      rw [List.drop_eq_nil_of_le (le_refl _)]
      simp)]
    rw [List.take_length]
    simp [expected_calls]
  | succ fuel ih =>
    intro skip calls hf hle
    rcases Nat.lt_or_ge skip items.length with hlt | hge
    · -- a nonempty page is fetched
      have hplen : (fetch_page items take skip).length = min take (items.length - skip) := by
        simp [fetch_page, List.length_take, List.length_drop]
      have hne : fetch_page items take skip ≠ [] := by
        intro h0
        rw [h0] at hplen
        have h1 : min take (items.length - skip) = 0 := by simpa using hplen.symm
        rcases Nat.min_eq_zero_iff.mp h1 with h2 | h2 <;> omega
      have hacc2 : (items.take skip).filterMap page_entry
          ++ (fetch_page items take skip).filterMap page_entry
          = (items.take (skip + take)).filterMap page_entry := by
        rw [← List.filterMap_append]
        congr 1
        rw [List.take_add]
        rfl
      have hseen2 : items.take skip ++ fetch_page items take skip
          = items.take (skip + take) := by
        rw [List.take_add]
        rfl
      rw [paginate_go_step _ _ _ _ _ _ _ rfl hne, hacc2, hseen2]
      rcases Nat.lt_trichotomy (skip + take) items.length with hc | hc | hc
      · -- middle page: full, count below totalCount → continue
        have hcond : ¬ (((items.take (skip + take)).filterMap page_entry).length
            ≥ items.length ∨ (fetch_page items take skip).length < take) := by
          push_neg
          constructor
          · have hlen1 : ((items.take (skip + take)).filterMap page_entry).length
                ≤ (items.take (skip + take)).length := List.length_filterMap_le _ _
            have hlen2 : (items.take (skip + take)).length = skip + take := by
              rw [List.length_take]
              omega
            omega
          · rw [hplen]
            omega
        rw [if_neg hcond]
        rw [ih (skip + take) (calls + 1) (by omega) (by omega)]
        have hsub : items.length - (skip + take) = items.length - skip - take := by omega
        have hE := expected_calls_big take (items.length - skip) ht (by omega)
          (items.all (fun it => (page_entry it).isSome))
        rw [hsub, hE]
        have hgen : ∀ E : Nat, calls + 1 + E = calls + (1 + E) := by omega
        rw [hgen]
      · -- last page exactly full: break only when every item is a dream entry
        have hplen2 : (fetch_page items take skip).length = take := by
          rw [hplen]
          omega
        have htk : items.take (skip + take) = items := by
          rw [List.take_of_length_le (by omega)]
        have hr : items.length - skip = take := by omega
        rcases hA : items.all (fun it => (page_entry it).isSome) with _ | _
        · -- not all dreams: the count stays short, one extra call happens
          have hlenlt : (items.filterMap page_entry).length < items.length := by
            have h1 := List.length_filterMap_le page_entry items
            have h2 : (items.filterMap page_entry).length ≠ items.length := by
              intro heq2
              rw [(length_filterMap_all_eq page_entry items).mp heq2] at hA
              simp at hA
            omega
          have hcond : ¬ (((items.take (skip + take)).filterMap page_entry).length
              ≥ items.length ∨ (fetch_page items take skip).length < take) := by
            push_neg
            constructor
            · rw [htk]
              omega
            · rw [hplen2]
          rw [if_neg hcond]
          rw [ih (skip + take) (calls + 1) (by omega) (by omega)]
          have h0 : items.length - (skip + take) = 0 := by omega
          rw [h0, hr, expected_calls_exact take ht false]
          simp [expected_calls]
        · -- all dreams: count reaches totalCount, loop breaks
          have hlen : (items.filterMap page_entry).length = items.length :=
            (length_filterMap_all_eq page_entry items).mpr hA
          have hcond : (((items.take (skip + take)).filterMap page_entry).length
              ≥ items.length ∨ (fetch_page items take skip).length < take) := by
            left
            rw [htk]
            omega
          rw [if_pos hcond]
          rw [htk, hr, expected_calls_exact take ht true]
          simp
      · -- short last page: break on page length
        have hplen2 : (fetch_page items take skip).length = items.length - skip := by
          rw [hplen]
          omega
        have htk : items.take (skip + take) = items := by
          rw [List.take_of_length_le (by omega)]
        rw [htk]
        have hcond : ((items.filterMap page_entry).length ≥ items.length
            ∨ (fetch_page items take skip).length < take) := by
          right
          rw [hplen2]
          omega
        rw [if_pos hcond]
        rw [expected_calls_small take (items.length - skip) (by omega) (by omega)]
    · -- skip has reached the end: empty page, final call
      have hskip : skip = items.length := by omega
      subst hskip
      rw [paginate_go_empty_page _ _ _ _ _ _ _ rfl (by
        show (items.drop items.length).take take = []
        rw [List.drop_eq_nil_of_le (le_refl _)]
        simp)]
      rw [List.take_length]
      simp [expected_calls]

/-- Whatever happens — including a raising listing call at any point —
the accumulated index is exactly the dream entries of the pages fetched
so far, and those pages form a prefix of the collection. -/
lemma paginate_go_partial (err : Nat → Bool) (items : List PlaylistItem) (take : Nat) :
    ∀ (fuel skip calls : Nat), items.length - skip ≤ fuel →
    (get_playlist_dreams_go err items take skip
        ((items.take skip).filterMap page_entry) calls (items.take skip)).dreams
      = (get_playlist_dreams_go err items take skip
          ((items.take skip).filterMap page_entry) calls (items.take skip)).seen.filterMap
            page_entry
    ∧ ∃ m, (get_playlist_dreams_go err items take skip
        ((items.take skip).filterMap page_entry) calls (items.take skip)).seen
          = items.take m := by
  intro fuel
  induction fuel with
  | zero =>
    intro skip calls hf
    cases herr : err calls with
    | true =>
      rw [paginate_go_err _ _ _ _ _ _ _ herr]
      exact ⟨rfl, skip, rfl⟩
    | false =>
      have hpage : fetch_page items take skip = [] := by
        show (items.drop skip).take take = []
        rw [List.drop_eq_nil_of_le (by omega)]
        simp
      rw [paginate_go_empty_page _ _ _ _ _ _ _ herr hpage]
      exact ⟨rfl, skip, rfl⟩
  | succ fuel ih =>
    intro skip calls hf
    cases herr : err calls with
    | true =>
      rw [paginate_go_err _ _ _ _ _ _ _ herr]
      exact ⟨rfl, skip, rfl⟩
    | false =>
      by_cases hpage : fetch_page items take skip = []
      · rw [paginate_go_empty_page _ _ _ _ _ _ _ herr hpage]
        exact ⟨rfl, skip, rfl⟩
      · have hacc2 : (items.take skip).filterMap page_entry
            ++ (fetch_page items take skip).filterMap page_entry
            = (items.take (skip + take)).filterMap page_entry := by
          rw [← List.filterMap_append]
          congr 1
          rw [List.take_add]
          rfl
        have hseen2 : items.take skip ++ fetch_page items take skip
            = items.take (skip + take) := by
          rw [List.take_add]
          rfl
        have hlt := fetch_page_nonempty items take skip hpage
        rw [paginate_go_step _ _ _ _ _ _ _ herr hpage, hacc2, hseen2]
        by_cases hcond : (((items.take (skip + take)).filterMap page_entry).length
            ≥ items.length ∨ (fetch_page items take skip).length < take)
        · rw [if_pos hcond]
          exact ⟨rfl, skip + take, rfl⟩
        · rw [if_neg hcond]
          exact ih (skip + take) (calls + 1) (by omega)

/-- Claim C3 (amended): for an error-free remote with `totalCount = N` and page
size `take = k > 0`, the loop fetches every item exactly once (`seen` is
the whole collection, in order) and collects exactly the dream entries;
the number of listing calls is exactly `ceil(N/k)` when `k` does not
divide `N`, and also when `k` divides `N` and every item is a dream
entry; but when `k` divides `N` (with `N > 0`) and some item is not a
dream entry, one extra call — returning an empty page — is made:
`N/k + 1` calls in total.  (The break condition compares the number of
accumulated dream entries, not fetched items, against `totalCount`.) -/
theorem C3_pagination_completeness_amended (items : List PlaylistItem) (take : Nat)
    (ht : 0 < take) :
    (get_playlist_dreams_go (fun _ => false) items take 0 [] 0 []).seen = items
    ∧ (get_playlist_dreams_go (fun _ => false) items take 0 [] 0 []).dreams
        = items.filterMap page_entry
    ∧ (0 < items.length → ¬ take ∣ items.length →
        (get_playlist_dreams_go (fun _ => false) items take 0 [] 0 []).calls
          = (items.length + take - 1) / take)
    ∧ (0 < items.length → take ∣ items.length →
        items.all (fun it => (page_entry it).isSome) = true →
        (get_playlist_dreams_go (fun _ => false) items take 0 [] 0 []).calls
          = items.length / take)
    ∧ (0 < items.length → take ∣ items.length →
        items.all (fun it => (page_entry it).isSome) = false →
        (get_playlist_dreams_go (fun _ => false) items take 0 [] 0 []).calls
          = items.length / take + 1) := by
  have H0 := paginate_go_full items take ht items.length 0 0 (by omega) (by omega)
  have H : get_playlist_dreams_go (fun _ => false) items take 0 [] 0 []
      = ⟨items.filterMap page_entry,
         0 + expected_calls take (items.length - 0)
           (items.all (fun it => (page_entry it).isSome)),
         items⟩ := H0
  rw [H]
  refine ⟨rfl, rfl, ?_, ?_, ?_⟩
  · intro hN hdvd
    have hmod : ¬ items.length % take = 0 := by
      intro hm
      exact hdvd (Nat.dvd_of_mod_eq_zero hm)
    show 0 + expected_calls take (items.length - 0) _ = _
    rw [Nat.sub_zero, Nat.zero_add]
    unfold expected_calls
    rw [if_neg (by omega)]
    rw [if_neg (by intro hand; exact hmod hand.1)]
    omega
  · intro hN hdvd hA
    obtain ⟨q, hq⟩ := hdvd
    show 0 + expected_calls take (items.length - 0) _ = _
    rw [Nat.sub_zero, Nat.zero_add]
    unfold expected_calls
    rw [if_neg (by omega), hA]
    rw [if_neg (by intro hand; exact absurd hand.2 (by simp))]
    rw [hq]
    have h1 : take * q + take - 1 = (take - 1) + take * q := by omega
    rw [h1, Nat.add_mul_div_left _ _ ht, Nat.div_eq_of_lt (by omega),
      Nat.mul_div_cancel_left _ ht]
    omega
  · intro hN hdvd hA
    obtain ⟨q, hq⟩ := hdvd
    show 0 + expected_calls take (items.length - 0) _ = _
    rw [Nat.sub_zero, Nat.zero_add]
    unfold expected_calls
    rw [if_neg (by omega), hA]
    rw [if_pos (by
      constructor
      · rw [hq]
        simp [Nat.mul_mod_right]
      · rfl)]
    rw [hq]
    have h1 : take * q + take - 1 = (take - 1) + take * q := by omega
    rw [h1, Nat.add_mul_div_left _ _ ht, Nat.div_eq_of_lt (by omega),
      Nat.mul_div_cancel_left _ ht]
    omega

/-- Claim C3 counterexample: a collection of N = 2 non-dream items listed with
page size k = 1 < N answers `ceil(N/k) = 2` by the claim, but the loop
makes 3 listing calls: the dream count (0) never reaches `totalCount`,
so after the 2 full pages a third call returning an empty page is
needed. -/
theorem C3_pagination_completeness_counterexample :
    (get_playlist_dreams_go (fun _ => false) [itemOther, itemOther] 1 0 [] 0 []).calls = 3
    ∧ ((2 : Nat) + 1 - 1) / 1 = 2 ∧ (1 : Nat) < 2 := by
  refine ⟨?_, by norm_num, by norm_num⟩
  have H0 := paginate_go_full [itemOther, itemOther] 1 (by norm_num) 2 0 0 (by simp) (by simp)
  have H2 : (get_playlist_dreams_go (fun _ => false) [itemOther, itemOther] 1 0 [] 0 []).calls
      = 0 + expected_calls 1 ([itemOther, itemOther].length - 0)
          ([itemOther, itemOther].all (fun it => (page_entry it).isSome)) :=
    congrArg PaginateResult.calls H0
  rw [H2]
  decide

/-- Witness for C3 (amended) at three non-dream items and page size 2:
`ceil(3/2) = 2` calls, all items seen once. -/
theorem C3_pagination_completeness_amended_witness :
    (get_playlist_dreams_go (fun _ => false) [itemOther, itemOther, itemOther] 2 0 [] 0 []).seen
      = [itemOther, itemOther, itemOther]
    ∧ (get_playlist_dreams_go (fun _ => false) [itemOther, itemOther, itemOther] 2 0 [] 0 []).dreams
      = [itemOther, itemOther, itemOther].filterMap page_entry
    ∧ (get_playlist_dreams_go (fun _ => false) [itemOther, itemOther, itemOther] 2 0 [] 0 []).calls
      = ([itemOther, itemOther, itemOther].length + 2 - 1) / 2 :=
  ⟨(C3_pagination_completeness_amended [itemOther, itemOther, itemOther] 2 (by norm_num)).1,
   (C3_pagination_completeness_amended [itemOther, itemOther, itemOther] 2 (by norm_num)).2.1,
   (C3_pagination_completeness_amended [itemOther, itemOther, itemOther] 2
     (by norm_num)).2.2.1 (by norm_num) (by decide)⟩

/-- Claim C7: a failing remote listing or per-item lookup never blocks
submission.  A raising playlist fetch yields an empty wan dedup index;
with an empty index nothing is skipped and every unit is either
submitted or individually failed; the uprez pagination returns the dream
entries of whatever prefix of pages it fetched before an error; a
raising per-item lookup reads as "not yet processed"; and when every
lookup raises, the uprez filter keeps every unit. -/
theorem C7_dedup_scan_failure_fail_open :
    (∀ e : Unit, get_existing_dream_identifiers (Except.error e) = [])
    ∧ (∀ (env : WanEnv) (images : List ImageFile) (combos : List String),
        (wan_submission env images combos []).skipped_count = 0
        ∧ (wan_submission env images combos []).active_dreams.length
            + (wan_submission env images combos []).failed_count
          = images.length * combos.length)
    ∧ (∀ (err : Nat → Bool) (items : List PlaylistItem) (take : Nat),
        (get_playlist_dreams_go err items take 0 [] 0 []).dreams
          = (get_playlist_dreams_go err items take 0 [] 0 []).seen.filterMap page_entry
        ∧ ∃ m, (get_playlist_dreams_go err items take 0 [] 0 []).seen = items.take m)
    ∧ (∀ (e : Unit) (marker : String),
        is_dream_already_uprezed (Except.error e) marker = false)
    ∧ (∀ (env : UprezEnv) (marker : String) (units : List DreamRec),
        (∀ u, env.get_dream u = Except.error ()) →
        uprez_dreams_to_process env marker units = units) := by
  refine ⟨fun e => rfl, ?_, ?_, fun e marker => rfl, ?_⟩
  · intro env images combos
    have hsk := wan_submission_empty_index_skipped env images combos
    have hout : (wan_submission env images combos []).active_dreams.length
        + (wan_submission env images combos []).skipped_count
        + (wan_submission env images combos []).failed_count
        = images.length * combos.length := by
      have h := wan_fold_outcomes env [] combos images {}
      unfold wan_submission
      unfold wan_outcomes at h
      simpa using h
    exact ⟨hsk, by omega⟩
  · intro err items take
    exact paginate_go_partial err items take items.length 0 0 (by omega)
  · intro env marker units hget
    unfold uprez_dreams_to_process
    rw [List.filter_eq_self.mpr]
    intro d hd
    rw [hget d.uuid]
    rfl

/-- Witness for C7 at concrete failing oracles. -/
theorem C7_dedup_scan_failure_fail_open_witness :
    get_existing_dream_identifiers (Except.error ()) = []
    ∧ (wan_submission wanEnvOk [imgPlain] ["x"] []).skipped_count = 0
    ∧ is_dream_already_uprezed (Except.error ()) "uprez" = false
    ∧ uprez_dreams_to_process
        { create := fun _ _ => Except.ok "n", attach := fun _ => Except.ok (),
          get_dream := fun _ => Except.error () } "uprez" [uprezUnit1] = [uprezUnit1] :=
  ⟨C7_dedup_scan_failure_fail_open.1 (),
   (C7_dedup_scan_failure_fail_open.2.1 wanEnvOk [imgPlain] ["x"]).1,
   C7_dedup_scan_failure_fail_open.2.2.2.1 () "uprez",
   C7_dedup_scan_failure_fail_open.2.2.2.2
     { create := fun _ _ => Except.ok "n", attach := fun _ => Except.ok (),
       get_dream := fun _ => Except.error () } "uprez" [uprezUnit1] (fun u => rfl)⟩

end Engines
